import Mathlib

/-!
# Drive reconciliation of `pkg/drive/drive.go`

A shallow embedding of `DriveEventHandler.Handle`, `update` and `delete`.

* Go `error` values are represented by their `Error()` text; `nil` is `none`.
* The drive object is passed by pointer in Go and mutated in place; here every
  function returns the object as it stands when the call returns.
* The collaborators held by the handler (repository client, formatter, mounter,
  statter) and the package-level functions of `sys` are interfaces whose
  implementations are outside `drive.go`.  Each is a field giving the outcome of
  a call as a function of its arguments, and every invocation is appended to a
  trace of `Call`s, in program order.
-/

namespace DirectCSI

/-- Text of a non-nil Go `error`. -/
abbrev Error := String

/-- The `directcsi.DriveStatus` values named in `drive.go`.  The Go type is a
string type, and the `switch` of `update` has no `default`; `Other` stands for
a value that is none of the six constants. -/
inductive DriveStatus where
  | InUse
  | Available
  | Unavailable
  | Ready
  | Terminating
  | Released
  | Other (raw : String)
  deriving DecidableEq, Repr

/-- Kubernetes `metav1.ConditionStatus`. -/
inductive ConditionStatus where
  | True
  | False
  | Unknown
  deriving DecidableEq, Repr

/-- Modelled from the spec: `utils.BoolToCondition` is declared outside
`drive.go`; a condition carries a boolean status, so `true` becomes the status
`True` and `false` the status `False`. -/
def BoolToCondition (b : Bool) : ConditionStatus :=
  if b then ConditionStatus.True else ConditionStatus.False

/-- Modelled from the spec: one named condition, carrying
`{status, reason, message}`. -/
structure Condition where
  Status : ConditionStatus
  Reason : String
  Message : String
  deriving DecidableEq, Repr

/-- Modelled from the spec: `Status.Conditions` is the set of the three named
conditions `{Owned, Mounted, Formatted}` (the Go slice type and the helper that
edits it are declared outside `drive.go`). -/
structure Conditions where
  Owned : Condition
  Mounted : Condition
  Formatted : Condition
  deriving DecidableEq, Repr

/-- The condition types passed to `utils.UpdateCondition` by `update`. -/
inductive ConditionType where
  | Owned
  | Mounted
  | Formatted
  deriving DecidableEq, Repr

/-- Modelled from the spec: `utils.UpdateCondition` is declared outside
`drive.go`; it sets status, reason and message of the condition of the given
type. -/
def UpdateCondition (conds : Conditions) (condType : ConditionType)
    (condStatus : ConditionStatus) (reason msg : String) : Conditions :=
  match condType with
  | ConditionType.Owned => { conds with Owned := ⟨condStatus, reason, msg⟩ }
  | ConditionType.Mounted => { conds with Mounted := ⟨condStatus, reason, msg⟩ }
  | ConditionType.Formatted => { conds with Formatted := ⟨condStatus, reason, msg⟩ }

/-- The fields of `Spec.RequestedFormat` read by `drive.go`. -/
structure RequestedFormatInfo where
  Force : Bool
  MountOptions : List String
  deriving DecidableEq, Repr

/-- The fields of `DirectCSIDrive.Spec` read by `drive.go`; a nil
`RequestedFormat` pointer is `none`. -/
structure DirectCSIDriveSpec where
  DirectCSIOwned : Bool
  RequestedFormat : Option RequestedFormatInfo
  deriving DecidableEq, Repr

/-- The fields of `DirectCSIDrive.Status` read or written by `drive.go`.
Capacities are `int64` in Go and are kept as integers here, with the
subtraction of `update` wrapped explicitly. -/
structure DirectCSIDriveStatus where
  NodeName : String
  DriveStatus : DriveStatus
  FilesystemUUID : String
  Filesystem : String
  Mountpoint : String
  MountOptions : List String
  TotalCapacity : Int
  FreeCapacity : Int
  AllocatedCapacity : Int
  MajorNumber : Nat
  MinorNumber : Nat
  Conditions : Conditions
  deriving DecidableEq, Repr

/-- The drive object `directcsi.DirectCSIDrive`. -/
structure DirectCSIDrive where
  Name : String
  Finalizers : List String
  Spec : DirectCSIDriveSpec
  Status : DirectCSIDriveStatus
  deriving DecidableEq, Repr

/-- Two's-complement wrap of an integer into the `int64` range. -/
def wrapInt64 (x : Int) : Int :=
  (x + 2 ^ 63) % 2 ^ 64 - 2 ^ 63

/-- The `DriveUpdateType` constants. -/
inductive DriveUpdateType where
  | DriveUpdateTypeOwnAndFormat
  | DriveUpdateTypeUnknown
  deriving DecidableEq, Repr

/-- The events switched on by `Handle`. -/
inductive EventType where
  | AddEvent
  | UpdateEvent
  | DeleteEvent
  deriving DecidableEq, Repr

/-- One invocation of a collaborator, with its arguments. -/
inductive Call where
  | DirectCSIDrivesList
  | DirectCSIDrivesUpdate (drive : DirectCSIDrive)
  | uuidNew
  | MakeBlockFile (path : String) (major minor : Nat)
  | UnmountDrive (source : String)
  | FormatDrive (uuid source : String) (force : Bool)
  | MountDrive (source target : String) (mountOpts : List String)
  | GetFreeCapacityFromStatfs (mountpoint : String)
  | SafeUnmount (target : String)
  deriving DecidableEq, Repr

/-- The device operations of the format path and of the deletion path. -/
def Call.isDeviceOp : Call → Bool
  | Call.MakeBlockFile _ _ _ => true
  | Call.UnmountDrive _ => true
  | Call.FormatDrive _ _ _ => true
  | Call.MountDrive _ _ _ => true
  | Call.GetFreeCapacityFromStatfs _ => true
  | Call.SafeUnmount _ => true
  | _ => false

/-- A repository update. -/
def Call.isUpdate : Call → Bool
  | Call.DirectCSIDrivesUpdate _ => true
  | _ => false

/-- An unmount, by the mounter or by `sys.SafeUnmount`. -/
def Call.isUnmount : Call → Bool
  | Call.UnmountDrive _ => true
  | Call.SafeUnmount _ => true
  | _ => false

/-- The struct `DriveEventHandler`: the node identity and the outcome of each
call on its collaborators (`directCSIClient`, `formatter`, `mounter`,
`statter`). -/
structure DriveEventHandler where
  nodeID : String
  listDrives : Except Error (List DirectCSIDrive)
  updateDrive : DirectCSIDrive → Except Error DirectCSIDrive
  MakeBlockFile : String → Nat → Nat → Option Error
  FormatDrive : String → String → Bool → Option Error
  MountDrive : String → String → List String → Option Error
  UnmountDrive : String → Option Error
  GetFreeCapacityFromStatfs : String → Except Error Int

/-- What `drive.go` imports from the packages `sys`, `directcsi` and `uuid`:
constants whose declarations are outside `drive.go`, the outcome of the
package-level functions, and the sixteen bytes that `uuid.New` draws from the
random source. -/
structure Imports where
  MountRoot : String
  FSTypeXFS : String
  GetDirectCSIPath : String → String
  SafeUnmount : String → Option Error
  DirectCSIDriveFinalizerDataProtection : String
  DirectCSIDriveReasonAdded : String
  DirectCSIDriveMessageMounted : String
  DirectCSIDriveMessageNotMounted : String
  DirectCSIDriveMessageFormatted : String
  DirectCSIDriveMessageNotFormatted : String
  randomBytes : List Nat

/-! ## Library functions used by `drive.go` -/

/-- Splits a path at every separator `/` (the elements may be empty). -/
def splitPath : List Char → List (List Char)
  | [] => [[]]
  | c :: cs =>
    match splitPath cs with
    | [] => [[]]
    | e :: es => if c = '/' then [] :: e :: es else (c :: e) :: es

/-- The element loop of Go's `filepath.Clean` on Unix: `out` holds the elements
kept so far, last one first.  Empty elements and `.` are dropped; `..` removes
the last kept element when there is one that is not itself `..`, is dropped at
the root, and is kept otherwise. -/
def cleanElems (rooted : Bool) : List (List Char) → List (List Char) → List (List Char)
  | out, [] => out.reverse
  | out, e :: es =>
    if e = [] ∨ e = ['.'] then cleanElems rooted out es
    else if e = ['.', '.'] then
      match out with
      | top :: below =>
        if top = ['.', '.'] then cleanElems rooted (e :: out) es
        else cleanElems rooted below es
      | [] => if rooted then cleanElems rooted [] es else cleanElems rooted [e] es
    else cleanElems rooted (e :: out) es

/-- Go's `filepath.Clean` on Unix. -/
def Clean (path : String) : String :=
  if path = "" then "."
  else
    let rooted : Bool := path.data.head? = some '/'
    let out := (if rooted then ['/'] else []) ++
      List.intercalate ['/'] (cleanElems rooted [] (splitPath path.data))
    if out = [] then "." else String.mk out

/-- Go's `filepath.Join` on Unix: leading empty elements are ignored, the rest
is joined with `/` and cleaned; all elements empty gives the empty string. -/
def Join : List String → String
  | [] => ""
  | e :: rest =>
    if e = "" then Join rest
    else Clean (String.mk (List.intercalate ['/'] ((e :: rest).map String.data)))

/-- Lower-case hexadecimal digit of the low four bits. -/
def hexDigit (n : Nat) : Char :=
  "0123456789abcdef".data.getD (n % 16) '0'

/-- Two hexadecimal digits of a byte. -/
def hexByte (b : Nat) : List Char :=
  [hexDigit (b / 16), hexDigit b]

/-- The identifier `uuid.New` builds from sixteen random bytes: byte 6 gets
version 4 and byte 8 the variant bits `10`. -/
def uuidFromRandom (rnd : List Nat) : List Nat :=
  (List.range 16).map fun i =>
    let b := rnd.getD i 0 % 256
    if i = 6 then b % 16 + 0x40 else if i = 8 then b % 64 + 0x80 else b

/-- The method `UUID.String`: the form `xxxxxxxx-xxxx-xxxx-xxxx-xxxxxxxxxxxx`. -/
def uuidString (u : List Nat) : String :=
  let hex (from_ n : Nat) : List Char := ((u.drop from_).take n).flatMap hexByte
  String.mk (hex 0 4 ++ '-' :: hex 4 2 ++ '-' :: hex 6 2 ++ '-' :: hex 8 2 ++ '-' :: hex 10 6)

/-- The expression `uuid.New().String()`. -/
def Imports.uuidNewString (im : Imports) : String :=
  uuidString (uuidFromRandom im.randomBytes)

/-! ## `DriveEventHandler.update` -/

/-- What a call of `update`, `delete` or `Handle` leaves behind: the returned
error, the drive object as mutated in place, and the collaborator calls made,
in order. -/
structure Result where
  err : Option Error
  drive : DirectCSIDrive
  calls : List Call
  deriving DecidableEq, Repr

/-- The closure `ownAndFormat` of `update`. -/
def ownAndFormat (drive : DirectCSIDrive) : Bool :=
  drive.Spec.DirectCSIOwned && drive.Spec.RequestedFormat != none

/-- The closure `driveUpdateType` of `update`. -/
def driveUpdateType (drive : DirectCSIDrive) : DriveUpdateType :=
  if ownAndFormat drive then DriveUpdateType.DriveUpdateTypeOwnAndFormat
  else DriveUpdateType.DriveUpdateTypeUnknown

/-- The `for` loop of `isDuplicateUUID` over the listed drives. -/
def isDuplicateUUIDLoop (nodeID driveName fsUUID : String) : List DirectCSIDrive → Bool
  | [] => false
  | drive :: drives =>
    if drive.Status.NodeName ≠ nodeID ∨ drive.Name = driveName then
      isDuplicateUUIDLoop nodeID driveName fsUUID drives
    else if drive.Status.FilesystemUUID = fsUUID then true
    else isDuplicateUUIDLoop nodeID driveName fsUUID drives

/-- The closure `isDuplicateUUID` of `update`; it makes one `List` call. -/
def isDuplicateUUID (handler : DriveEventHandler) (driveName fsUUID : String) :
    Except Error Bool :=
  match handler.listDrives with
  | Except.error err => Except.error err
  | Except.ok drives => Except.ok (isDuplicateUUIDLoop handler.nodeID driveName fsUUID drives)

/-- The closure `getFileSystemUUID` of `update`, with the calls it makes. -/
def getFileSystemUUID (im : Imports) (handler : DriveEventHandler) (drive : DirectCSIDrive) :
    Except Error String × List Call :=
  let UUID := drive.Status.FilesystemUUID
  if UUID = "" then
    (Except.ok im.uuidNewString, [Call.uuidNew])
  else
    match isDuplicateUUID handler drive.Name UUID with
    | Except.error err => (Except.error err, [Call.DirectCSIDrivesList])
    | Except.ok isDup =>
      if isDup then (Except.ok im.uuidNewString, [Call.DirectCSIDrivesList, Call.uuidNew])
      else (Except.ok UUID, [Call.DirectCSIDrivesList])

/-- The mutable variables of the `DriveStatusAvailable` case of `update`. -/
structure Pass where
  drive : DirectCSIDrive
  mounted : Bool
  formatted : Bool
  updateErr : Option Error
  calls : List Call
  deriving DecidableEq, Repr

/-- Lines 188-191: create the block file. -/
def passMakeBlockFile (handler : DriveEventHandler) (directCSIPath : String) (p : Pass) : Pass :=
  let p := { p with calls := p.calls ++
    [Call.MakeBlockFile directCSIPath p.drive.Status.MajorNumber p.drive.Status.MinorNumber] }
  match handler.MakeBlockFile directCSIPath p.drive.Status.MajorNumber p.drive.Status.MinorNumber with
  | some err => { p with updateErr := some err }
  | none => p

/-- Lines 198-207: unmount a mounted drive before formatting. -/
def passUnmount (handler : DriveEventHandler) (source : String) (p : Pass) : Pass :=
  if p.mounted then
    let p := { p with calls := p.calls ++ [Call.UnmountDrive source] }
    match handler.UnmountDrive source with
    | some err =>
      { p with updateErr := some ("failed to unmount drive: " ++ p.drive.Name ++ " " ++ err) }
    | none =>
      { p with
        drive := { p.drive with Status := { p.drive.Status with Mountpoint := "" } }
        mounted := false }
  else p

/-- Lines 209-219: format the drive. -/
def passFormatDrive (im : Imports) (handler : DriveEventHandler) (source : String) (force : Bool)
    (p : Pass) : Pass :=
  if p.updateErr = none then
    let p := { p with calls := p.calls ++
      [Call.FormatDrive p.drive.Status.FilesystemUUID source force] }
    match handler.FormatDrive p.drive.Status.FilesystemUUID source force with
    | some err =>
      { p with updateErr := some ("failed to format drive: " ++ p.drive.Name ++ " " ++ err) }
    | none =>
      { p with
        drive := { p.drive with
          Status := { p.drive.Status with Filesystem := im.FSTypeXFS, AllocatedCapacity := 0 } }
        formatted := true }
  else p

/-- Lines 196-221: the format decision. -/
def passFormat (im : Imports) (handler : DriveEventHandler) (source : String) (force : Bool)
    (p : Pass) : Pass :=
  if p.updateErr = none then
    if !p.formatted || force then
      passFormatDrive im handler source force (passUnmount handler source p)
    else p
  else p

/-- Lines 232-240: read the free capacity of the mounted drive. -/
def passStatfs (handler : DriveEventHandler) (p : Pass) : Pass :=
  let p := { p with calls := p.calls ++ [Call.GetFreeCapacityFromStatfs p.drive.Status.Mountpoint] }
  match handler.GetFreeCapacityFromStatfs p.drive.Status.Mountpoint with
  | Except.error sErr => { p with updateErr := some sErr }
  | Except.ok freeCapacity =>
    { p with
      mounted := true
      drive := { p.drive with
        Status := { p.drive.Status with
          FreeCapacity := freeCapacity
          AllocatedCapacity := wrapInt64 (p.drive.Status.TotalCapacity - freeCapacity) } } }

/-- Lines 223-243: the mount decision. -/
def passMount (handler : DriveEventHandler) (source target : String) (mountOpts : List String)
    (p : Pass) : Pass :=
  if p.updateErr = none then
    if p.formatted && !p.mounted then
      let p := { p with calls := p.calls ++ [Call.MountDrive source target mountOpts] }
      match handler.MountDrive source target mountOpts with
      | some err =>
        { p with updateErr := some ("failed to mount drive: " ++ p.drive.Name ++ " " ++ err) }
      | none =>
        passStatfs handler
          { p with
            drive := { p.drive with
              Status := { p.drive.Status with Mountpoint := target, MountOptions := mountOpts } } }
    else p
  else p

/-- Lines 245-277: the three `utils.UpdateCondition` calls. -/
def passConditions (im : Imports) (p : Pass) : Pass :=
  let conds := p.drive.Status.Conditions
  let conds := UpdateCondition conds ConditionType.Owned
    (BoolToCondition (p.formatted && p.mounted)) im.DirectCSIDriveReasonAdded
    (match p.updateErr with
     | some updateErr => updateErr
     | none => "")
  let conds := UpdateCondition conds ConditionType.Mounted
    (BoolToCondition p.mounted) im.DirectCSIDriveReasonAdded
    (if p.mounted then im.DirectCSIDriveMessageMounted else im.DirectCSIDriveMessageNotMounted)
  let conds := UpdateCondition conds ConditionType.Formatted
    (BoolToCondition p.formatted) im.DirectCSIDriveReasonAdded
    (if p.formatted then im.DirectCSIDriveMessageFormatted
     else im.DirectCSIDriveMessageNotFormatted)
  { p with drive := { p.drive with Status := { p.drive.Status with Conditions := conds } } }

/-- Lines 279-285: promote the drive when no step failed. -/
def passFinalize (im : Imports) (p : Pass) : Pass :=
  if p.updateErr = none then
    { p with
      drive := { p.drive with
        Finalizers := [im.DirectCSIDriveFinalizerDataProtection]
        Status := { p.drive.Status with DriveStatus := DriveStatus.Ready }
        Spec := { p.drive.Spec with RequestedFormat := none } } }
  else p

/-- Lines 287-292: persist the object and return. -/
def passPersist (handler : DriveEventHandler) (p : Pass) : Result :=
  let calls := p.calls ++ [Call.DirectCSIDrivesUpdate p.drive]
  match handler.updateDrive p.drive with
  | Except.error err => { err := some err, drive := p.drive, calls := calls }
  | Except.ok _ => { err := p.updateErr, drive := p.drive, calls := calls }

/-- Lines 185-286 of `update`: the pass over an `Available` drive once the
identifier is resolved, up to the object handed to the repository. -/
def updatePass (im : Imports) (handler : DriveEventHandler) (drive : DirectCSIDrive)
    (rf : RequestedFormatInfo) (UUID : String) (calls : List Call) : Pass :=
  let force := rf.Force
  let mounted : Bool := drive.Status.Mountpoint != ""
  let formatted : Bool := drive.Status.Filesystem != ""
  let drive := { drive with Status := { drive.Status with FilesystemUUID := UUID } }
  let directCSIPath := im.GetDirectCSIPath drive.Status.FilesystemUUID
  let directCSIMount := Join [im.MountRoot, drive.Status.FilesystemUUID]
  let p : Pass :=
    { drive := drive, mounted := mounted, formatted := formatted, updateErr := none,
      calls := calls }
  let p := passMakeBlockFile handler directCSIPath p
  let source := directCSIPath
  let target := directCSIMount
  let mountOpts := rf.MountOptions
  let p := passFormat im handler source force p
  let p := passMount handler source target mountOpts p
  let p := passConditions im p
  passFinalize im p

/-- The method `update`. -/
def update (im : Imports) (handler : DriveEventHandler) (drive : DirectCSIDrive) : Result :=
  match driveUpdateType drive with
  | DriveUpdateType.DriveUpdateTypeOwnAndFormat =>
    match drive.Spec.RequestedFormat with
    | none =>
      -- `drive.Spec.RequestedFormat.Force` on a nil pointer; excluded by `ownAndFormat`
      { err := some "nil pointer dereference", drive := drive, calls := [] }
    | some rf =>
      match drive.Status.DriveStatus with
      | DriveStatus.Released
      | DriveStatus.Unavailable
      | DriveStatus.Ready
      | DriveStatus.Terminating
      | DriveStatus.InUse => { err := none, drive := drive, calls := [] }
      | DriveStatus.Available =>
        match getFileSystemUUID im handler drive with
        | (Except.error err, calls) => { err := some err, drive := drive, calls := calls }
        | (Except.ok UUID, calls) =>
          passPersist handler (updatePass im handler drive rf UUID calls)
      | DriveStatus.Other _ => { err := none, drive := drive, calls := [] }
  | DriveUpdateType.DriveUpdateTypeUnknown =>
    { err := some "Unknown update type", drive := drive, calls := [] }

/-! ## `DriveEventHandler.delete` and `Handle` -/

/-- Lines 311-335 of `delete`: the finalizer checks, the unmount and the write
that clears the finalizers; `calls` are the calls made before. -/
def deleteFinalizers (im : Imports) (handler : DriveEventHandler) (drive : DirectCSIDrive)
    (calls : List Call) : Result :=
  let finalizers := drive.Finalizers
  match finalizers with
  | [] => { err := none, drive := drive, calls := calls }
  | finalizer :: _ =>
    if finalizers.length > 1 then
      { err := some "cannot delete drive in use", drive := drive, calls := calls }
    else if finalizer ≠ im.DirectCSIDriveFinalizerDataProtection then
      { err := some "invalid state reached. Report this issue at https://github.com/minio/direct-csi/issues",
        drive := drive, calls := calls }
    else
      let target := Join [im.MountRoot, drive.Name]
      let calls := calls ++ [Call.SafeUnmount target]
      match im.SafeUnmount target with
      | some err => { err := some err, drive := drive, calls := calls }
      | none =>
        let drive := { drive with Finalizers := [] }
        let calls := calls ++ [Call.DirectCSIDrivesUpdate drive]
        match handler.updateDrive drive with
        | Except.error err => { err := some err, drive := drive, calls := calls }
        | Except.ok _ => { err := none, drive := drive, calls := calls }

/-- The drive with status `Terminating`, as line 303 of `delete` sets it. -/
def DirectCSIDrive.terminating (drive : DirectCSIDrive) : DirectCSIDrive :=
  { drive with Status := { drive.Status with DriveStatus := DriveStatus.Terminating } }

/-- The method `delete`. -/
def delete (im : Imports) (handler : DriveEventHandler) (drive : DirectCSIDrive) : Result :=
  if drive.Status.DriveStatus ≠ DriveStatus.Terminating then
    let drive := drive.terminating
    let calls := [Call.DirectCSIDrivesUpdate drive]
    match handler.updateDrive drive with
    | Except.error err => { err := some err, drive := drive, calls := calls }
    | Except.ok _ => deleteFinalizers im handler drive calls
  else deleteFinalizers im handler drive []

/-- The method `Handle`. -/
def Handle (im : Imports) (handler : DriveEventHandler) (event : EventType)
    (drive : DirectCSIDrive) : Result :=
  match event with
  | EventType.AddEvent | EventType.UpdateEvent => update im handler drive
  | EventType.DeleteEvent => delete im handler drive

/-! ## Outcomes of calls, and concrete data -/

/-- Whether the collaborator answers the call without an error. -/
def Call.succeeds (im : Imports) (handler : DriveEventHandler) : Call → Bool
  | Call.DirectCSIDrivesList => handler.listDrives.isOk
  | Call.DirectCSIDrivesUpdate drive => (handler.updateDrive drive).isOk
  | Call.uuidNew => true
  | Call.MakeBlockFile path major minor => (handler.MakeBlockFile path major minor).isNone
  | Call.UnmountDrive source => (handler.UnmountDrive source).isNone
  | Call.FormatDrive uuid source force => (handler.FormatDrive uuid source force).isNone
  | Call.MountDrive source target mountOpts => (handler.MountDrive source target mountOpts).isNone
  | Call.GetFreeCapacityFromStatfs mountpoint => (handler.GetFreeCapacityFromStatfs mountpoint).isOk
  | Call.SafeUnmount target => (im.SafeUnmount target).isNone

/-- Sample values for the imported constants; every package-level call succeeds. -/
def sampleImports : Imports where
  MountRoot := "/mnt"
  FSTypeXFS := "xfs"
  GetDirectCSIPath := fun uuid => "/dev/" ++ uuid
  SafeUnmount := fun _ => none
  DirectCSIDriveFinalizerDataProtection := "data-protection"
  DirectCSIDriveReasonAdded := "Added"
  DirectCSIDriveMessageMounted := "mounted"
  DirectCSIDriveMessageNotMounted := "not-mounted"
  DirectCSIDriveMessageFormatted := "formatted"
  DirectCSIDriveMessageNotFormatted := "not-formatted"
  randomBytes := [1, 2, 3, 4, 5, 6, 7, 8, 9, 10, 11, 12, 13, 14, 15, 16]

/-- A handler of node `n1` over the listed repository content, all of whose
collaborators succeed; the repository stores what it is given and the statter
reports 60 free bytes. -/
def sampleHandler (drives : List DirectCSIDrive) : DriveEventHandler where
  nodeID := "n1"
  listDrives := Except.ok drives
  updateDrive := fun drive => Except.ok drive
  MakeBlockFile := fun _ _ _ => none
  FormatDrive := fun _ _ _ => none
  MountDrive := fun _ _ _ => none
  UnmountDrive := fun _ => none
  GetFreeCapacityFromStatfs := fun _ => Except.ok 60

/-- Conditions all `Unknown`, as on a drive not yet reconciled. -/
def sampleConditions : Conditions where
  Owned := ⟨ConditionStatus.Unknown, "", ""⟩
  Mounted := ⟨ConditionStatus.Unknown, "", ""⟩
  Formatted := ⟨ConditionStatus.Unknown, "", ""⟩

/-- A drive of node `n1` owned by the controller with the pending request
`{force: false}`, not formatted, not mounted, without identifier or
finalizers. -/
def sampleDrive (name : String) (status : DriveStatus) : DirectCSIDrive where
  Name := name
  Finalizers := []
  Spec := { DirectCSIOwned := true, RequestedFormat := some { Force := false, MountOptions := ["noatime"] } }
  Status :=
    { NodeName := "n1", DriveStatus := status, FilesystemUUID := "", Filesystem := "",
      Mountpoint := "", MountOptions := [], TotalCapacity := 100, FreeCapacity := 0,
      AllocatedCapacity := 0, MajorNumber := 8, MinorNumber := 16,
      Conditions := sampleConditions }

/-- Puts earlier calls in front of the trace of a pass. -/
def Pass.prepend (cs : List Call) (p : Pass) : Pass :=
  { p with calls := cs ++ p.calls }

/-- The handler `sampleHandler` with a mounter whose mount fails. -/
def mountFailingHandler (drives : List DirectCSIDrive) : DriveEventHandler :=
  { sampleHandler drives with MountDrive := fun _ _ _ => some "device busy" }

/-- A drive like `sampleDrive` that carries the given finalizers. -/
def finalizedDrive (name : String) (status : DriveStatus) (finalizers : List String) :
    DirectCSIDrive :=
  { sampleDrive name status with Finalizers := finalizers }

/-- The handler `sampleHandler` over a repository that refuses every update. -/
def conflictHandler : DriveEventHandler :=
  { sampleHandler [] with updateDrive := fun _ => Except.error "conflict" }

/-- The fields of a drive that the steps before the promotion never write. -/
def Framed (d d' : DirectCSIDrive) : Prop :=
  d'.Name = d.Name ∧ d'.Finalizers = d.Finalizers ∧ d'.Spec = d.Spec ∧
  d'.Status.DriveStatus = d.Status.DriveStatus ∧ d'.Status.NodeName = d.Status.NodeName ∧
  d'.Status.FilesystemUUID = d.Status.FilesystemUUID

/-- What the booleans `formatted` and `mounted` of a pass say about the drive. -/
def Pass.Consistent (im : Imports) (p : Pass) : Prop :=
  (p.formatted = true → im.FSTypeXFS ≠ "" → p.drive.Status.Filesystem ≠ "") ∧
  (p.mounted = true → p.drive.Status.Mountpoint ≠ "")

/-- A step adds device operations only. -/
def Pass.Extends (p q : Pass) : Prop :=
  ∀ c ∈ q.calls, c ∈ p.calls ∨ (c.isDeviceOp = true ∧ c.isUpdate = false)

/-- What every step before the promotion keeps. -/
def Pass.Step (im : Imports) (p q : Pass) : Prop :=
  Framed p.drive q.drive ∧ p.Extends q ∧ (p.Consistent im → q.Consistent im) ∧
  (p.updateErr ≠ none → q.updateErr ≠ none)

/-! ## The repository across reconciliations -/

/-- A drive of node `n1` that already carries the identifier `u1`. -/
def identifiedDrive (name : String) : DirectCSIDrive :=
  { sampleDrive name DriveStatus.Available with
    Status := { (sampleDrive name DriveStatus.Available).Status with FilesystemUUID := "u1" } }

/-- A handler started without a node identity (`ListerWatcher` then selects the
drives of every node), over a repository holding `d1` and `d2` of node `n1`,
both with the identifier `u1`. -/
def anyNodeHandler : DriveEventHandler :=
  { sampleHandler [identifiedDrive "d1", identifiedDrive "d2"] with nodeID := "" }

/-- Modelled from the spec: the object repository replaces the stored object of
the same name by the object it is given. -/
def store (repo : List DirectCSIDrive) (drive : DirectCSIDrive) : List DirectCSIDrive :=
  repo.map fun d => if d.Name = drive.Name then drive else d

/-- One Add or Update event delivered to the handler of a node: the name of the
drive, and the imports and collaborators as they answer during this
reconciliation. -/
structure Reconciliation where
  name : String
  im : Imports
  handler : DriveEventHandler

/-- The handler of a reconciliation connected to the repository: `List` returns
the current content. -/
def Reconciliation.connect (r : Reconciliation) (repo : List DirectCSIDrive) : DriveEventHandler :=
  { r.handler with listDrives := Except.ok repo }

/-- The repository after the calls of one run: every `Update` call that the
repository answers without error stores its object. -/
def applyWrites (handler : DriveEventHandler) (repo : List DirectCSIDrive) :
    List Call → List DirectCSIDrive
  | [] => repo
  | Call.DirectCSIDrivesUpdate drive :: calls =>
    if (handler.updateDrive drive).isOk then applyWrites handler (store repo drive) calls
    else applyWrites handler repo calls
  | _ :: calls => applyWrites handler repo calls

/-- Modelled from the spec: the dispatcher delivers the stored object of the
given name to `update`, whose successful writes reach the repository.  The
second component tells whether this was a successful format reconciliation:
the drive was Available and `update` returned no error. -/
def reconcile (repo : List DirectCSIDrive) (r : Reconciliation) : List DirectCSIDrive × Bool :=
  match repo.find? (fun d => d.Name = r.name) with
  | none => (repo, false)
  | some drive =>
    let res := update r.im (r.connect repo) drive
    (applyWrites (r.connect repo) repo res.calls,
      decide (drive.Status.DriveStatus = DriveStatus.Available) && res.err.isNone)

/-- Runs the reconciliations one after another; the second component collects
the names of the drives made Ready by a successful format reconciliation. -/
def reconcileAll : List DirectCSIDrive × List String → List Reconciliation →
    List DirectCSIDrive × List String
  | state, [] => state
  | (repo, ready), r :: rs =>
    reconcileAll ((reconcile repo r).1, if (reconcile repo r).2 then r.name :: ready else ready) rs

/-- Whether the repository answers the call, an `Update`, without error. -/
def Call.accepted (handler : DriveEventHandler) : Call → Bool
  | Call.DirectCSIDrivesUpdate drive => (handler.updateDrive drive).isOk
  | _ => false

/-- The assumption on the identifier generator: at every reconciliation the
identifier it would return is held by no drive of the repository. -/
def freshAlong : List DirectCSIDrive → List Reconciliation → Bool
  | _, [] => true
  | repo, r :: rs =>
    repo.all (fun d => d.Status.FilesystemUUID != r.im.uuidNewString) &&
      freshAlong (reconcile repo r).1 rs

/-- Drives made Ready on the node hold an identifier that no other drive of the
node holds. -/
def UniqueOnNode (node : String) (repo : List DirectCSIDrive) (ready : List String) : Prop :=
  ∀ x ∈ repo, ∀ y ∈ repo, x.Name ∈ ready → x.Status.NodeName = node → y.Status.NodeName = node →
    y.Name ≠ x.Name → y.Status.FilesystemUUID ≠ x.Status.FilesystemUUID

/-- Two reconciliations on node `n1`, of `d1` and then of `d2`, whose generators
return different identifiers. -/
def sampleReconciliations : List Reconciliation :=
  [{ name := "d1", im := sampleImports, handler := sampleHandler [] },
   { name := "d2", im := { sampleImports with randomBytes := [] }, handler := sampleHandler [] }]

/-! ## The device runs of `update` -/

/-- Line 185 of `update`: the drive with the resolved identifier. -/
def DirectCSIDrive.withUUID (drive : DirectCSIDrive) (UUID : String) : DirectCSIDrive :=
  { drive with Status := { drive.Status with FilesystemUUID := UUID } }

/-- Lines 167-169 and 185 of `update`: the variables of the pass before the
first device operation, with an empty trace. -/
def Pass.start (drive : DirectCSIDrive) (UUID : String) : Pass :=
  { drive := drive.withUUID UUID
    mounted := drive.Status.Mountpoint != ""
    formatted := drive.Status.Filesystem != ""
    updateErr := none
    calls := [] }

/-- Lines 186-243 of `update`: the device operations of the pass. -/
def updateDevices (im : Imports) (handler : DriveEventHandler) (drive : DirectCSIDrive)
    (rf : RequestedFormatInfo) (UUID : String) : Pass :=
  passMount handler (im.GetDirectCSIPath UUID) (Join [im.MountRoot, UUID]) rf.MountOptions
    (passFormat im handler (im.GetDirectCSIPath UUID) rf.Force
      (passMakeBlockFile handler (im.GetDirectCSIPath UUID) (Pass.start drive UUID)))

/-- The block-file call of a pass (line 188). -/
def callMakeBlockFile (im : Imports) (drive : DirectCSIDrive) (UUID : String) : Call :=
  Call.MakeBlockFile (im.GetDirectCSIPath UUID) drive.Status.MajorNumber drive.Status.MinorNumber

/-- The unmount call of a pass (line 199). -/
def callUnmount (im : Imports) (UUID : String) : Call :=
  Call.UnmountDrive (im.GetDirectCSIPath UUID)

/-- The format call of a pass (line 210). -/
def callFormat (im : Imports) (rf : RequestedFormatInfo) (UUID : String) : Call :=
  Call.FormatDrive UUID (im.GetDirectCSIPath UUID) rf.Force

/-- The mount call of a pass (line 225). -/
def callMount (im : Imports) (rf : RequestedFormatInfo) (UUID : String) : Call :=
  Call.MountDrive (im.GetDirectCSIPath UUID) (Join [im.MountRoot, UUID]) rf.MountOptions

/-- The statfs call of a pass (line 232). -/
def callStatfs (im : Imports) (UUID : String) : Call :=
  Call.GetFreeCapacityFromStatfs (Join [im.MountRoot, UUID])

/-- The unmount call when the drive is mounted on entry, nothing otherwise. -/
def unmountCalls (im : Imports) (drive : DirectCSIDrive) (UUID : String) : List Call :=
  if drive.Status.Mountpoint = "" then [] else [callUnmount im UUID]

/-- The drive after a successful format (lines 204 and 215-216). -/
def DirectCSIDrive.formattedAs (drive : DirectCSIDrive) (fsType : String) : DirectCSIDrive :=
  { drive with
    Status := { drive.Status with Mountpoint := "", Filesystem := fsType, AllocatedCapacity := 0 } }

/-- The drive after a successful mount (lines 230-231). -/
def DirectCSIDrive.mountedAt (drive : DirectCSIDrive) (target : String) (mountOpts : List String) :
    DirectCSIDrive :=
  { drive with Status := { drive.Status with Mountpoint := target, MountOptions := mountOpts } }

/-- The drive after a successful statfs (lines 238-239). -/
def DirectCSIDrive.measured (drive : DirectCSIDrive) (freeCapacity : Int) : DirectCSIDrive :=
  { drive with
    Status := { drive.Status with
      FreeCapacity := freeCapacity
      AllocatedCapacity := wrapInt64 (drive.Status.TotalCapacity - freeCapacity) } }

/-- The ways the device operations of a pass can go, each with the outcomes of
the collaborators that lead to it and the variables of the pass it ends in. -/
inductive DeviceRun (im : Imports) (handler : DriveEventHandler) (drive : DirectCSIDrive)
    (rf : RequestedFormatInfo) (UUID : String) : Pass → Prop
  | blockFileFailed (e : Error)
      (hMk : (callMakeBlockFile im drive UUID).succeeds im handler = false)
      (hErr : handler.MakeBlockFile (im.GetDirectCSIPath UUID) drive.Status.MajorNumber
        drive.Status.MinorNumber = some e) :
      DeviceRun im handler drive rf UUID
        { drive := drive.withUUID UUID
          mounted := drive.Status.Mountpoint != ""
          formatted := drive.Status.Filesystem != ""
          updateErr := some e
          calls := [callMakeBlockFile im drive UUID] }
  | unmountFailed (e : Error)
      (hMk : (callMakeBlockFile im drive UUID).succeeds im handler = true)
      (hNeed : drive.Status.Filesystem = "" ∨ rf.Force = true)
      (hMounted : drive.Status.Mountpoint ≠ "")
      (hUn : (callUnmount im UUID).succeeds im handler = false)
      (hErr : handler.UnmountDrive (im.GetDirectCSIPath UUID) = some e) :
      DeviceRun im handler drive rf UUID
        { drive := drive.withUUID UUID
          mounted := true
          formatted := drive.Status.Filesystem != ""
          updateErr := some ("failed to unmount drive: " ++ drive.Name ++ " " ++ e)
          calls := [callMakeBlockFile im drive UUID, callUnmount im UUID] }
  | formatFailed (e : Error)
      (hMk : (callMakeBlockFile im drive UUID).succeeds im handler = true)
      (hNeed : drive.Status.Filesystem = "" ∨ rf.Force = true)
      (hUn : drive.Status.Mountpoint ≠ "" → (callUnmount im UUID).succeeds im handler = true)
      (hFo : (callFormat im rf UUID).succeeds im handler = false)
      (hErr : handler.FormatDrive UUID (im.GetDirectCSIPath UUID) rf.Force = some e) :
      DeviceRun im handler drive rf UUID
        { drive := { drive.withUUID UUID with
            Status := { (drive.withUUID UUID).Status with Mountpoint := "" } }
          mounted := false
          formatted := drive.Status.Filesystem != ""
          updateErr := some ("failed to format drive: " ++ drive.Name ++ " " ++ e)
          calls := callMakeBlockFile im drive UUID :: (unmountCalls im drive UUID ++
            [callFormat im rf UUID]) }
  | formattedMountFailed (e : Error)
      (hMk : (callMakeBlockFile im drive UUID).succeeds im handler = true)
      (hNeed : drive.Status.Filesystem = "" ∨ rf.Force = true)
      (hUn : drive.Status.Mountpoint ≠ "" → (callUnmount im UUID).succeeds im handler = true)
      (hFo : (callFormat im rf UUID).succeeds im handler = true)
      (hMo : (callMount im rf UUID).succeeds im handler = false)
      (hErr : handler.MountDrive (im.GetDirectCSIPath UUID) (Join [im.MountRoot, UUID])
        rf.MountOptions = some e) :
      DeviceRun im handler drive rf UUID
        { drive := (drive.withUUID UUID).formattedAs im.FSTypeXFS
          mounted := false
          formatted := true
          updateErr := some ("failed to mount drive: " ++ drive.Name ++ " " ++ e)
          calls := callMakeBlockFile im drive UUID :: (unmountCalls im drive UUID ++
            [callFormat im rf UUID, callMount im rf UUID]) }
  | formattedStatfsFailed (e : Error)
      (hMk : (callMakeBlockFile im drive UUID).succeeds im handler = true)
      (hNeed : drive.Status.Filesystem = "" ∨ rf.Force = true)
      (hUn : drive.Status.Mountpoint ≠ "" → (callUnmount im UUID).succeeds im handler = true)
      (hFo : (callFormat im rf UUID).succeeds im handler = true)
      (hMo : (callMount im rf UUID).succeeds im handler = true)
      (hSt : (callStatfs im UUID).succeeds im handler = false)
      (hErr : handler.GetFreeCapacityFromStatfs (Join [im.MountRoot, UUID]) = Except.error e) :
      DeviceRun im handler drive rf UUID
        { drive := ((drive.withUUID UUID).formattedAs im.FSTypeXFS).mountedAt
            (Join [im.MountRoot, UUID]) rf.MountOptions
          mounted := false
          formatted := true
          updateErr := some e
          calls := callMakeBlockFile im drive UUID :: (unmountCalls im drive UUID ++
            [callFormat im rf UUID, callMount im rf UUID, callStatfs im UUID]) }
  | formattedMounted (freeCapacity : Int)
      (hMk : (callMakeBlockFile im drive UUID).succeeds im handler = true)
      (hNeed : drive.Status.Filesystem = "" ∨ rf.Force = true)
      (hUn : drive.Status.Mountpoint ≠ "" → (callUnmount im UUID).succeeds im handler = true)
      (hFo : (callFormat im rf UUID).succeeds im handler = true)
      (hMo : (callMount im rf UUID).succeeds im handler = true)
      (hSt : (callStatfs im UUID).succeeds im handler = true)
      (hFree : handler.GetFreeCapacityFromStatfs (Join [im.MountRoot, UUID]) =
        Except.ok freeCapacity) :
      DeviceRun im handler drive rf UUID
        { drive := (((drive.withUUID UUID).formattedAs im.FSTypeXFS).mountedAt
            (Join [im.MountRoot, UUID]) rf.MountOptions).measured freeCapacity
          mounted := true
          formatted := true
          updateErr := none
          calls := callMakeBlockFile im drive UUID :: (unmountCalls im drive UUID ++
            [callFormat im rf UUID, callMount im rf UUID, callStatfs im UUID]) }
  | keptMounted
      (hMk : (callMakeBlockFile im drive UUID).succeeds im handler = true)
      (hFs : drive.Status.Filesystem ≠ "") (hForce : rf.Force = false)
      (hMounted : drive.Status.Mountpoint ≠ "") :
      DeviceRun im handler drive rf UUID
        { drive := drive.withUUID UUID
          mounted := true
          formatted := true
          updateErr := none
          calls := [callMakeBlockFile im drive UUID] }
  | keptMountFailed (e : Error)
      (hMk : (callMakeBlockFile im drive UUID).succeeds im handler = true)
      (hFs : drive.Status.Filesystem ≠ "") (hForce : rf.Force = false)
      (hMounted : drive.Status.Mountpoint = "")
      (hMo : (callMount im rf UUID).succeeds im handler = false)
      (hErr : handler.MountDrive (im.GetDirectCSIPath UUID) (Join [im.MountRoot, UUID])
        rf.MountOptions = some e) :
      DeviceRun im handler drive rf UUID
        { drive := drive.withUUID UUID
          mounted := false
          formatted := true
          updateErr := some ("failed to mount drive: " ++ drive.Name ++ " " ++ e)
          calls := [callMakeBlockFile im drive UUID, callMount im rf UUID] }
  | keptStatfsFailed (e : Error)
      (hMk : (callMakeBlockFile im drive UUID).succeeds im handler = true)
      (hFs : drive.Status.Filesystem ≠ "") (hForce : rf.Force = false)
      (hMounted : drive.Status.Mountpoint = "")
      (hMo : (callMount im rf UUID).succeeds im handler = true)
      (hSt : (callStatfs im UUID).succeeds im handler = false)
      (hErr : handler.GetFreeCapacityFromStatfs (Join [im.MountRoot, UUID]) = Except.error e) :
      DeviceRun im handler drive rf UUID
        { drive := (drive.withUUID UUID).mountedAt (Join [im.MountRoot, UUID]) rf.MountOptions
          mounted := false
          formatted := true
          updateErr := some e
          calls := [callMakeBlockFile im drive UUID, callMount im rf UUID, callStatfs im UUID] }
  | keptThenMounted (freeCapacity : Int)
      (hMk : (callMakeBlockFile im drive UUID).succeeds im handler = true)
      (hFs : drive.Status.Filesystem ≠ "") (hForce : rf.Force = false)
      (hMounted : drive.Status.Mountpoint = "")
      (hMo : (callMount im rf UUID).succeeds im handler = true)
      (hSt : (callStatfs im UUID).succeeds im handler = true)
      (hFree : handler.GetFreeCapacityFromStatfs (Join [im.MountRoot, UUID]) =
        Except.ok freeCapacity) :
      DeviceRun im handler drive rf UUID
        { drive := ((drive.withUUID UUID).mountedAt (Join [im.MountRoot, UUID])
            rf.MountOptions).measured freeCapacity
          mounted := true
          formatted := true
          updateErr := none
          calls := [callMakeBlockFile im drive UUID, callMount im rf UUID, callStatfs im UUID] }

/-- The error that `update` records when the device operation of the call
fails: the collaborator's error, wrapped with the drive name for unmount,
format and mount; `none` when the call succeeds or is no device operation. -/
def Call.failure (handler : DriveEventHandler) (name : String) : Call → Option Error
  | Call.MakeBlockFile path major minor => handler.MakeBlockFile path major minor
  | Call.UnmountDrive source =>
    (handler.UnmountDrive source).map fun e => "failed to unmount drive: " ++ name ++ " " ++ e
  | Call.FormatDrive uuid source force =>
    (handler.FormatDrive uuid source force).map fun e =>
      "failed to format drive: " ++ name ++ " " ++ e
  | Call.MountDrive source target mountOpts =>
    (handler.MountDrive source target mountOpts).map fun e =>
      "failed to mount drive: " ++ name ++ " " ++ e
  | Call.GetFreeCapacityFromStatfs mountpoint =>
    match handler.GetFreeCapacityFromStatfs mountpoint with
    | Except.error e => some e
    | Except.ok _ => none
  | _ => none

/-- The place of a device operation in the order of a pass; 0 for other calls. -/
def Call.rank : Call → Nat
  | Call.MakeBlockFile _ _ _ => 1
  | Call.UnmountDrive _ => 2
  | Call.FormatDrive _ _ _ => 3
  | Call.MountDrive _ _ _ => 4
  | Call.GetFreeCapacityFromStatfs _ => 5
  | _ => 0

/-- Lines 245-277 as a function of the two booleans and the error of the pass:
the three conditions that `update` writes. -/
def conditionsOf (im : Imports) (formatted mounted : Bool) (updateErr : Option Error) :
    Conditions where
  Owned :=
    { Status := BoolToCondition (formatted && mounted)
      Reason := im.DirectCSIDriveReasonAdded
      Message := updateErr.getD "" }
  Mounted :=
    { Status := BoolToCondition mounted
      Reason := im.DirectCSIDriveReasonAdded
      Message :=
        if mounted then im.DirectCSIDriveMessageMounted else im.DirectCSIDriveMessageNotMounted }
  Formatted :=
    { Status := BoolToCondition formatted
      Reason := im.DirectCSIDriveReasonAdded
      Message :=
        if formatted then im.DirectCSIDriveMessageFormatted
        else im.DirectCSIDriveMessageNotFormatted }

/-- A handler whose repository cannot be listed. -/
def listFailingHandler : DriveEventHandler :=
  { sampleHandler [] with listDrives := Except.error "list failed" }

/-- A format call. -/
def Call.isFormat : Call → Bool
  | Call.FormatDrive _ _ _ => true
  | _ => false

/-- A handler whose statter fails. -/
def statfsFailingHandler : DriveEventHandler :=
  { sampleHandler [] with GetFreeCapacityFromStatfs := fun _ => Except.error "statfs failed" }

/-- A drive like `sampleDrive` that carries the xfs filesystem already, with 7
bytes allocated. -/
def formattedDrive (name : String) : DirectCSIDrive :=
  { sampleDrive name DriveStatus.Available with
    Status := { (sampleDrive name DriveStatus.Available).Status with
      Filesystem := "xfs", AllocatedCapacity := 7 } }

/-- A drive like `sampleDrive` that the controller does not own. -/
def unownedDrive (name : String) (status : DriveStatus) : DirectCSIDrive :=
  { sampleDrive name status with
    Spec := { (sampleDrive name status).Spec with DirectCSIOwned := false } }

/-- A drive like `sampleDrive` that is mounted on entry. -/
def mountedDrive (name : String) : DirectCSIDrive :=
  { sampleDrive name DriveStatus.Available with
    Status := { (sampleDrive name DriveStatus.Available).Status with Mountpoint := "/mnt/old" } }

/-! ## Facts about the library functions -/

theorem string_mk_ne_empty {l : List Char} (h : l ≠ []) : String.mk l ≠ "" := by
  intro hEq
  apply h
  have := congrArg String.data hEq
  simpa using this

theorem uuidNewString_ne_empty (im : Imports) : im.uuidNewString ≠ "" := by
  unfold Imports.uuidNewString uuidString
  apply string_mk_ne_empty
  simp

theorem Clean_ne_empty (path : String) : Clean path ≠ "" := by
  have key : ∀ out : List Char, (if out = [] then "." else String.mk out) ≠ "" := by
    intro out
    by_cases h : out = []
    · simp [h]
    · simpa [h] using string_mk_ne_empty h
  unfold Clean
  by_cases h : path = ""
  · simp [h]
  · simp only [h, if_false]
    exact key _

theorem Join_ne_empty (a b : String) (h : b ≠ "") : Join [a, b] ≠ "" := by
  simp only [Join]
  split
  · simp [h, Clean_ne_empty]
  · exact Clean_ne_empty _

/-! ## Facts about the steps of `update` -/

theorem driveUpdateType_of_gate (drive : DirectCSIDrive)
    (hOwned : drive.Spec.DirectCSIOwned = true) (hReq : drive.Spec.RequestedFormat ≠ none) :
    driveUpdateType drive = DriveUpdateType.DriveUpdateTypeOwnAndFormat := by
  simp [driveUpdateType, ownAndFormat, hOwned, hReq]

theorem passPersist_calls (handler : DriveEventHandler) (p : Pass) :
    (passPersist handler p).calls = p.calls ++ [Call.DirectCSIDrivesUpdate p.drive] := by
  unfold passPersist
  cases handler.updateDrive p.drive <;> rfl

theorem passPersist_drive (handler : DriveEventHandler) (p : Pass) :
    (passPersist handler p).drive = p.drive := by
  unfold passPersist
  cases handler.updateDrive p.drive <;> rfl

theorem passPersist_err (handler : DriveEventHandler) (p : Pass) :
    (passPersist handler p).err =
      match handler.updateDrive p.drive with
      | Except.error err => some err
      | Except.ok _ => p.updateErr := by
  unfold passPersist
  cases handler.updateDrive p.drive <;> rfl

theorem passPersist_err_of_ok (handler : DriveEventHandler) (p : Pass)
    (h : (handler.updateDrive p.drive).isOk = true) :
    (passPersist handler p).err = p.updateErr := by
  rw [passPersist_err]
  cases hU : handler.updateDrive p.drive with
  | error e => simp [hU, Except.isOk, Except.toBool] at h
  | ok d => rfl

theorem passMakeBlockFile_prepend (handler : DriveEventHandler) (path : String) (cs : List Call)
    (p : Pass) :
    passMakeBlockFile handler path (p.prepend cs) = (passMakeBlockFile handler path p).prepend cs := by
  cases h : handler.MakeBlockFile path p.drive.Status.MajorNumber p.drive.Status.MinorNumber <;>
    simp [passMakeBlockFile, Pass.prepend, h]

theorem passUnmount_prepend (handler : DriveEventHandler) (source : String) (cs : List Call)
    (p : Pass) :
    passUnmount handler source (p.prepend cs) = (passUnmount handler source p).prepend cs := by
  cases h : handler.UnmountDrive source <;> cases hM : p.mounted <;>
    simp [passUnmount, Pass.prepend, h, hM]

theorem passFormatDrive_prepend (im : Imports) (handler : DriveEventHandler) (source : String)
    (force : Bool) (cs : List Call) (p : Pass) :
    passFormatDrive im handler source force (p.prepend cs) =
      (passFormatDrive im handler source force p).prepend cs := by
  cases h : handler.FormatDrive p.drive.Status.FilesystemUUID source force <;>
    cases hE : p.updateErr <;> simp [passFormatDrive, Pass.prepend, h, hE]

theorem passFormat_prepend (im : Imports) (handler : DriveEventHandler) (source : String)
    (force : Bool) (cs : List Call) (p : Pass) :
    passFormat im handler source force (p.prepend cs) =
      (passFormat im handler source force p).prepend cs := by
  unfold passFormat
  rw [passUnmount_prepend, passFormatDrive_prepend]
  cases hE : p.updateErr <;> cases hF : p.formatted <;> cases force <;>
    simp [Pass.prepend, hE, hF]

theorem passStatfs_prepend (handler : DriveEventHandler) (cs : List Call) (p : Pass) :
    passStatfs handler (p.prepend cs) = (passStatfs handler p).prepend cs := by
  cases h : handler.GetFreeCapacityFromStatfs p.drive.Status.Mountpoint <;>
    simp [passStatfs, Pass.prepend, h]

theorem passMount_prepend (handler : DriveEventHandler) (source target : String)
    (mountOpts : List String) (cs : List Call) (p : Pass) :
    passMount handler source target mountOpts (p.prepend cs) =
      (passMount handler source target mountOpts p).prepend cs := by
  unfold passMount
  cases hE : p.updateErr <;> cases hF : p.formatted <;> cases hM : p.mounted <;>
    cases hMo : handler.MountDrive source target mountOpts <;>
    cases hS : handler.GetFreeCapacityFromStatfs target <;>
    simp [Pass.prepend, passStatfs, hE, hF, hM, hMo, hS]

theorem passConditions_prepend (im : Imports) (cs : List Call) (p : Pass) :
    passConditions im (p.prepend cs) = (passConditions im p).prepend cs := rfl

theorem passFinalize_prepend (im : Imports) (cs : List Call) (p : Pass) :
    passFinalize im (p.prepend cs) = (passFinalize im p).prepend cs := by
  cases hE : p.updateErr <;> simp [passFinalize, Pass.prepend, hE]

theorem updatePass_prepend (im : Imports) (handler : DriveEventHandler) (drive : DirectCSIDrive)
    (rf : RequestedFormatInfo) (UUID : String) (cs : List Call) :
    updatePass im handler drive rf UUID cs =
      (updatePass im handler drive rf UUID []).prepend cs := by
  unfold updatePass
  simp only
  rw [← passFinalize_prepend, ← passConditions_prepend, ← passMount_prepend,
    ← passFormat_prepend, ← passMakeBlockFile_prepend]
  simp [Pass.prepend]


theorem getFileSystemUUID_calls (im : Imports) (handler : DriveEventHandler)
    (drive : DirectCSIDrive) :
    ∀ c ∈ (getFileSystemUUID im handler drive).2, c = Call.DirectCSIDrivesList ∨ c = Call.uuidNew := by
  unfold getFileSystemUUID
  simp only
  split
  · simp
  · split
    · simp
    · split <;> simp

theorem update_available_eq (im : Imports) (handler : DriveEventHandler)
    (drive : DirectCSIDrive) (rf : RequestedFormatInfo)
    (hStatus : drive.Status.DriveStatus = DriveStatus.Available)
    (hOwned : drive.Spec.DirectCSIOwned = true)
    (hReq : drive.Spec.RequestedFormat = some rf) :
    update im handler drive =
      match getFileSystemUUID im handler drive with
      | (Except.error err, calls) => { err := some err, drive := drive, calls := calls }
      | (Except.ok UUID, calls) =>
        passPersist handler ((updatePass im handler drive rf UUID []).prepend calls) := by
  have hType := driveUpdateType_of_gate drive hOwned (by simp [hReq])
  simp only [update, hType, hReq, hStatus]
  split <;> simp_all [← updatePass_prepend]

/-! ## Facts about `delete` -/

theorem terminating_of_terminating (drive : DirectCSIDrive)
    (h : drive.Status.DriveStatus = DriveStatus.Terminating) : drive.terminating = drive := by
  rcases drive with ⟨n, f, sp, st⟩
  rcases st with ⟨a, b, c, d, e, f, g, h', i, j, k, l⟩
  simp only [DirectCSIDrive.terminating] at h ⊢
  subst h
  rfl

theorem isOk_iff {ε α : Type} (x : Except ε α) : x.isOk = true ↔ ∃ a, x = Except.ok a := by
  cases x <;> simp [Except.isOk, Except.toBool]

theorem delete_of_terminating (im : Imports) (handler : DriveEventHandler)
    (drive : DirectCSIDrive)
    (hT : drive.Status.DriveStatus = DriveStatus.Terminating)
    (hFin : drive.Finalizers = [im.DirectCSIDriveFinalizerDataProtection])
    (hAll : ∀ c ∈ (delete im handler drive).calls, c.succeeds im handler = true) :
    delete im handler drive =
      { err := none
        drive := { drive with Finalizers := [] }
        calls :=
          [Call.SafeUnmount (Join [im.MountRoot, drive.Name]),
           Call.DirectCSIDrivesUpdate { drive with Finalizers := [] }] } := by
  cases hS : im.SafeUnmount (Join [im.MountRoot, drive.Name]) <;>
  cases hU : handler.updateDrive { drive with Finalizers := [] } <;>
  simp [delete, deleteFinalizers, hT, hFin, hS, hU, Call.succeeds, Except.isOk, Except.toBool] at hAll ⊢

theorem deleteFinalizers_blocked (im : Imports) (handler : DriveEventHandler)
    (drive : DirectCSIDrive) (calls : List Call)
    (hFin : 1 < drive.Finalizers.length ∨
      ∃ finalizer, drive.Finalizers = [finalizer] ∧
        finalizer ≠ im.DirectCSIDriveFinalizerDataProtection) :
    deleteFinalizers im handler drive calls =
      { err := some (if 1 < drive.Finalizers.length then "cannot delete drive in use"
          else "invalid state reached. Report this issue at https://github.com/minio/direct-csi/issues")
        drive := drive
        calls := calls } := by
  rcases hFin with hLen | ⟨finalizer, hOne, hNe⟩
  · match h : drive.Finalizers with
    | [] => simp [h] at hLen
    | [_] => simp [h] at hLen
    | f1 :: f2 :: rest => simp [deleteFinalizers, h]
  · simp [deleteFinalizers, hOne, hNe]

/-! ## Facts about the pass over an Available drive -/

theorem framed_refl (d : DirectCSIDrive) : Framed d d := ⟨rfl, rfl, rfl, rfl, rfl, rfl⟩

theorem framed_trans {a b c : DirectCSIDrive} (h1 : Framed a b) (h2 : Framed b c) : Framed a c :=
  ⟨h2.1.trans h1.1, h2.2.1.trans h1.2.1, h2.2.2.1.trans h1.2.2.1,
    h2.2.2.2.1.trans h1.2.2.2.1, h2.2.2.2.2.1.trans h1.2.2.2.2.1,
    h2.2.2.2.2.2.trans h1.2.2.2.2.2⟩

theorem step_refl (im : Imports) (p : Pass) : p.Step im p :=
  ⟨framed_refl _, fun _ h => Or.inl h, id, id⟩

theorem step_trans {im : Imports} {p q r : Pass} (h1 : p.Step im q) (h2 : q.Step im r) :
    p.Step im r := by
  obtain ⟨f1, e1, c1, u1⟩ := h1
  obtain ⟨f2, e2, c2, u2⟩ := h2
  refine ⟨framed_trans f1 f2, ?_, c2 ∘ c1, u2 ∘ u1⟩
  intro c hc
  rcases e2 c hc with h | h
  · exact e1 c h
  · exact Or.inr h

theorem Pass.extends_append (p q : Pass) (c : Call) (h : q.calls = p.calls ++ [c])
    (hc : c.isDeviceOp = true ∧ c.isUpdate = false) : p.Extends q := by
  intro c' hc'
  rw [h, List.mem_append, List.mem_singleton] at hc'
  rcases hc' with h' | rfl
  · exact Or.inl h'
  · exact Or.inr hc

theorem passMakeBlockFile_step (im : Imports) (handler : DriveEventHandler) (path : String) (p : Pass) :
    p.Step im (passMakeBlockFile handler path p) := by
  refine ⟨?_, ?_, ?_, ?_⟩
  · cases h : handler.MakeBlockFile path p.drive.Status.MajorNumber p.drive.Status.MinorNumber <;>
      simp [passMakeBlockFile, Framed, h]
  · cases h : handler.MakeBlockFile path p.drive.Status.MajorNumber p.drive.Status.MinorNumber <;>
      exact Pass.extends_append _ _ (Call.MakeBlockFile path p.drive.Status.MajorNumber p.drive.Status.MinorNumber)
        (by simp [passMakeBlockFile, h]) ⟨rfl, rfl⟩
  · cases h : handler.MakeBlockFile path p.drive.Status.MajorNumber p.drive.Status.MinorNumber <;>
      simp [passMakeBlockFile, Pass.Consistent, h]
  · cases h : handler.MakeBlockFile path p.drive.Status.MajorNumber p.drive.Status.MinorNumber <;>
      simp [passMakeBlockFile, h]

theorem passUnmount_step (im : Imports) (handler : DriveEventHandler) (source : String)
    (p : Pass) :
    p.Step im (passUnmount handler source p) := by
  cases hM : p.mounted
  · simpa [passUnmount, hM] using step_refl im p
  refine ⟨?_, ?_, ?_, ?_⟩
  · cases h : handler.UnmountDrive source <;>
      simp [passUnmount, Framed, h, hM]
  · cases h : handler.UnmountDrive source <;>
      exact Pass.extends_append _ _ (Call.UnmountDrive source)
        (by simp [passUnmount, h, hM]) ⟨rfl, rfl⟩
  · cases h : handler.UnmountDrive source <;>
      simp [passUnmount, Pass.Consistent, h, hM]
    tauto
  · cases h : handler.UnmountDrive source <;>
      simp [passUnmount, h, hM]

theorem passFormatDrive_step (im : Imports) (handler : DriveEventHandler) (source : String)
    (force : Bool) (p : Pass) :
    p.Step im (passFormatDrive im handler source force p) := by
  cases hE : p.updateErr
  swap
  · simpa [passFormatDrive, hE] using step_refl im p
  refine ⟨?_, ?_, ?_, ?_⟩
  · cases h : handler.FormatDrive p.drive.Status.FilesystemUUID source force <;>
      simp [passFormatDrive, Framed, h, hE]
  · cases h : handler.FormatDrive p.drive.Status.FilesystemUUID source force <;>
      exact Pass.extends_append _ _ (Call.FormatDrive p.drive.Status.FilesystemUUID source force)
        (by simp [passFormatDrive, h, hE]) ⟨rfl, rfl⟩
  · cases h : handler.FormatDrive p.drive.Status.FilesystemUUID source force <;>
      simp [passFormatDrive, Pass.Consistent, h, hE]
  · simp [hE]

theorem passFormat_step (im : Imports) (handler : DriveEventHandler) (source : String)
    (force : Bool) (p : Pass) :
    p.Step im (passFormat im handler source force p) := by
  unfold passFormat
  split
  · split
    · exact step_trans (passUnmount_step im handler source p)
        (passFormatDrive_step im handler source force _)
    · exact step_refl im p
  · exact step_refl im p

theorem passFormat_formatted (im : Imports) (handler : DriveEventHandler) (source : String)
    (force : Bool) (p : Pass)
    (h : (passFormat im handler source force p).updateErr = none) :
    (passFormat im handler source force p).formatted = true := by
  revert h
  cases hE : p.updateErr <;> cases hF : p.formatted <;> cases hFc : force <;>
    cases hM : p.mounted <;> cases hU : handler.UnmountDrive source <;>
    cases hFo : handler.FormatDrive p.drive.Status.FilesystemUUID source force <;>
    simp_all [passFormat, passFormatDrive, passUnmount]

theorem passStatfs_step (im : Imports) (handler : DriveEventHandler) (p : Pass)
    (hMp : p.drive.Status.Mountpoint ≠ "") : p.Step im (passStatfs handler p) := by
  refine ⟨?_, ?_, ?_, ?_⟩
  · cases h : handler.GetFreeCapacityFromStatfs p.drive.Status.Mountpoint <;>
      simp [passStatfs, Framed, h]
  · cases h : handler.GetFreeCapacityFromStatfs p.drive.Status.Mountpoint <;>
      exact Pass.extends_append _ _ (Call.GetFreeCapacityFromStatfs p.drive.Status.Mountpoint)
        (by simp [passStatfs, h]) ⟨rfl, rfl⟩
  · cases h : handler.GetFreeCapacityFromStatfs p.drive.Status.Mountpoint <;>
      simp [passStatfs, Pass.Consistent, h, hMp]
  · cases h : handler.GetFreeCapacityFromStatfs p.drive.Status.Mountpoint <;>
      simp [passStatfs, h]

theorem passMount_step (im : Imports) (handler : DriveEventHandler) (source target : String)
    (mountOpts : List String) (p : Pass) (hTarget : target ≠ "") :
    p.Step im (passMount handler source target mountOpts p) := by
  unfold passMount
  split
  swap
  · exact step_refl im p
  split
  swap
  · exact step_refl im p
  rename_i hE hFM
  simp only [Bool.and_eq_true, Bool.not_eq_true'] at hFM
  cases h : handler.MountDrive source target mountOpts with
  | some err =>
    refine ⟨?_, ?_, ?_, ?_⟩
    · simp [Framed]
    · exact Pass.extends_append _ _ (Call.MountDrive source target mountOpts) rfl ⟨rfl, rfl⟩
    · simp [Pass.Consistent]
    · simp
  | none =>
    refine step_trans ?_ (passStatfs_step im handler _ hTarget)
    refine ⟨?_, ?_, ?_, ?_⟩
    · simp [Framed]
    · exact Pass.extends_append _ _ (Call.MountDrive source target mountOpts) rfl ⟨rfl, rfl⟩
    · simp [Pass.Consistent, hFM.2]
    · simp

theorem passMount_mounted (handler : DriveEventHandler) (source target : String)
    (mountOpts : List String) (p : Pass)
    (h : (passMount handler source target mountOpts p).updateErr = none)
    (hF : p.formatted = true) :
    (passMount handler source target mountOpts p).mounted = true ∧
    (passMount handler source target mountOpts p).formatted = true := by
  revert h
  cases hE : p.updateErr <;> cases hM : p.mounted <;>
    cases hMo : handler.MountDrive source target mountOpts <;>
    cases hS : handler.GetFreeCapacityFromStatfs target <;>
    simp [passMount, passStatfs, hE, hF, hM, hMo, hS]

theorem passConditions_step (im : Imports) (p : Pass) : p.Step im (passConditions im p) :=
  ⟨⟨rfl, rfl, rfl, rfl, rfl, rfl⟩, fun _ h => Or.inl h, id, id⟩

/-- What the pass over an Available drive leaves in its variables: device
operations only in the trace, the identity of the drive and the resolved
identifier, the promoted fields when no step failed, and the old ones
otherwise. -/
theorem updatePass_spec (im : Imports) (handler : DriveEventHandler) (drive : DirectCSIDrive)
    (rf : RequestedFormatInfo) (UUID : String) (hUUID : UUID ≠ "") :
    (∀ c ∈ (updatePass im handler drive rf UUID []).calls,
      c.isDeviceOp = true ∧ c.isUpdate = false) ∧
    (updatePass im handler drive rf UUID []).drive.Name = drive.Name ∧
    (updatePass im handler drive rf UUID []).drive.Status.NodeName = drive.Status.NodeName ∧
    (updatePass im handler drive rf UUID []).drive.Status.FilesystemUUID = UUID ∧
    ((updatePass im handler drive rf UUID []).updateErr = none →
      (updatePass im handler drive rf UUID []).drive.Status.DriveStatus = DriveStatus.Ready ∧
      (updatePass im handler drive rf UUID []).drive.Finalizers =
        [im.DirectCSIDriveFinalizerDataProtection] ∧
      (updatePass im handler drive rf UUID []).drive.Spec.RequestedFormat = none ∧
      (im.FSTypeXFS ≠ "" → (updatePass im handler drive rf UUID []).drive.Status.Filesystem ≠ "") ∧
      (updatePass im handler drive rf UUID []).drive.Status.Mountpoint ≠ "") ∧
    ((updatePass im handler drive rf UUID []).updateErr ≠ none →
      (updatePass im handler drive rf UUID []).drive.Status.DriveStatus =
        drive.Status.DriveStatus ∧
      (updatePass im handler drive rf UUID []).drive.Finalizers = drive.Finalizers ∧
      (updatePass im handler drive rf UUID []).drive.Spec = drive.Spec) := by
  have hTarget : Join [im.MountRoot, UUID] ≠ "" := Join_ne_empty _ _ hUUID
  generalize hp0 : ({ drive := { drive with Status := { drive.Status with FilesystemUUID := UUID } }
                      mounted := drive.Status.Mountpoint != ""
                      formatted := drive.Status.Filesystem != ""
                      updateErr := none
                      calls := [] } : Pass) = p0
  have hC0 : p0.Consistent im := by
    subst hp0
    simp only [Pass.Consistent, bne_iff_ne, ne_eq, decide_eq_true_eq]
    exact ⟨fun h _ => h, id⟩
  generalize hp1 : passMakeBlockFile handler (im.GetDirectCSIPath UUID) p0 = p1
  generalize hp2 : passFormat im handler (im.GetDirectCSIPath UUID) rf.Force p1 = p2
  generalize hp3 : passMount handler (im.GetDirectCSIPath UUID) (Join [im.MountRoot, UUID])
    rf.MountOptions p2 = p3
  have hEq : updatePass im handler drive rf UUID [] = passFinalize im (passConditions im p3) := by
    subst hp3 hp2 hp1 hp0
    rfl
  have h01 : p0.Step im p1 := hp1 ▸ passMakeBlockFile_step im handler _ p0
  have h12 : p1.Step im p2 := hp2 ▸ passFormat_step im handler _ _ p1
  have h23 : p2.Step im p3 := hp3 ▸ passMount_step im handler _ _ _ p2 hTarget
  have h03 : p0.Step im p3 := step_trans (step_trans h01 h12) h23
  obtain ⟨hFrame, hExt, hCons, -⟩ := h03
  have hC3 := hCons hC0
  have hReady : p3.updateErr = none → p3.mounted = true ∧ p3.formatted = true := by
    intro h3
    have h2 : p2.updateErr = none := by
      by_contra hne
      exact h23.2.2.2 hne h3
    have hF2 : p2.formatted = true := hp2 ▸ passFormat_formatted im handler _ _ p1 (hp2 ▸ h2)
    exact hp3 ▸ passMount_mounted handler _ _ _ p2 (hp3 ▸ h3) hF2
  obtain ⟨f1, f2, f3, f4, f5, f6⟩ := hFrame
  have hd0 : p0.drive = { drive with Status := { drive.Status with FilesystemUUID := UUID } } := by
    subst hp0
    rfl
  have hc0 : p0.calls = [] := by
    subst hp0
    rfl
  rw [hd0] at f1 f2 f3 f4 f5 f6
  rw [hEq]
  refine ⟨?_, ?_, ?_, ?_, ?_, ?_⟩
  · intro c hc
    have hc3 : c ∈ p3.calls := by
      cases hE : p3.updateErr <;> simpa [passFinalize, passConditions, hE] using hc
    rcases hExt c hc3 with h | h
    · simp [hc0] at h
    · exact h
  · cases hE : p3.updateErr <;> simpa [passFinalize, passConditions, hE] using f1
  · cases hE : p3.updateErr <;> simpa [passFinalize, passConditions, hE] using f5
  · cases hE : p3.updateErr <;> simpa [passFinalize, passConditions, hE] using f6
  · intro hE
    have hE3 : p3.updateErr = none := by
      cases hE' : p3.updateErr with
      | none => rfl
      | some e => simp [passFinalize, passConditions, hE'] at hE
    obtain ⟨hM, hF⟩ := hReady hE3
    have hFs := hC3.1 hF
    have hMp := hC3.2 hM
    simp only [passFinalize, passConditions, hE3, if_true]
    exact ⟨trivial, trivial, trivial, hFs, hMp⟩
  · intro hE
    have hE3 : p3.updateErr ≠ none := by
      intro hE'
      simp [passFinalize, passConditions, hE'] at hE
    simp only [passFinalize, passConditions, hE3, if_false]
    exact ⟨f4, f2, f3⟩

theorem getFileSystemUUID_ne_empty (im : Imports) (handler : DriveEventHandler)
    (drive : DirectCSIDrive) (UUID : String) (calls : List Call)
    (h : getFileSystemUUID im handler drive = (Except.ok UUID, calls)) : UUID ≠ "" := by
  have hNew := uuidNewString_ne_empty im
  unfold getFileSystemUUID at h
  simp only at h
  split at h
  · cases h
    exact hNew
  · rename_i hStored
    split at h
    · cases h
    · split at h
      · cases h
        exact hNew
      · cases h
        exact hStored

theorem deleteFinalizers_calls (im : Imports) (handler : DriveEventHandler)
    (drive : DirectCSIDrive) (calls : List Call) :
    ∃ rest, (deleteFinalizers im handler drive calls).calls = calls ++ rest ∧
      ∀ d, Call.DirectCSIDrivesUpdate d ∈ rest → d = { drive with Finalizers := [] } := by
  unfold deleteFinalizers
  simp only
  split
  · exact ⟨[], by simp⟩
  · split
    · exact ⟨[], by simp⟩
    · split
      · exact ⟨[], by simp⟩
      · split
        · exact ⟨[Call.SafeUnmount (Join [im.MountRoot, drive.Name])], by simp⟩
        · split <;>
            exact ⟨[Call.SafeUnmount (Join [im.MountRoot, drive.Name]),
              Call.DirectCSIDrivesUpdate { drive with Finalizers := [] }], by simp⟩

theorem update_writes (im : Imports) (handler : DriveEventHandler) (drive d : DirectCSIDrive)
    (h : Call.DirectCSIDrivesUpdate d ∈ (update im handler drive).calls) :
    ∃ rf UUID calls, drive.Status.DriveStatus = DriveStatus.Available ∧
      getFileSystemUUID im handler drive = (Except.ok UUID, calls) ∧
      d = (updatePass im handler drive rf UUID []).drive ∧
      (update im handler drive).drive = d := by
  cases hType : driveUpdateType drive with
  | DriveUpdateTypeUnknown => simp [update, hType] at h
  | DriveUpdateTypeOwnAndFormat =>
    have hGate : drive.Spec.DirectCSIOwned = true ∧ drive.Spec.RequestedFormat ≠ none := by
      simpa [driveUpdateType, ownAndFormat] using hType
    obtain ⟨rf, hrf⟩ := Option.ne_none_iff_exists'.mp hGate.2
    by_cases hAvailable : drive.Status.DriveStatus = DriveStatus.Available
    · rw [update_available_eq im handler drive rf hAvailable hGate.1 hrf] at h ⊢
      have hCalls := getFileSystemUUID_calls im handler drive
      rcases hG : getFileSystemUUID im handler drive with ⟨res, cs⟩
      rw [hG] at h hCalls
      cases res with
      | error e =>
        rcases hCalls _ h with h' | h' <;> cases h'
      | ok UUID =>
        have hU := getFileSystemUUID_ne_empty im handler drive UUID cs hG
        obtain ⟨hDev, -⟩ := updatePass_spec im handler drive rf UUID hU
        simp only [passPersist_calls, passPersist_drive, Pass.prepend, List.mem_append,
          List.mem_singleton, Call.DirectCSIDrivesUpdate.injEq] at h ⊢
        rcases h with (h | h) | h
        · rcases hCalls _ h with h' | h' <;> cases h'
        · have := (hDev _ h).2
          simp [Call.isUpdate] at this
        · exact ⟨rf, UUID, cs, hAvailable, rfl, h, h.symm⟩
    · exfalso
      revert h
      simp only [update, hType, hrf]
      split <;> simp_all

/-! ## Facts about the resolution of identifiers and the repository -/

theorem isDuplicateUUIDLoop_iff (nodeID driveName fsUUID : String) (drives : List DirectCSIDrive) :
    isDuplicateUUIDLoop nodeID driveName fsUUID drives = true ↔
      ∃ other ∈ drives, other.Status.NodeName = nodeID ∧ other.Name ≠ driveName ∧
        other.Status.FilesystemUUID = fsUUID := by
  induction drives with
  | nil => simp [isDuplicateUUIDLoop]
  | cons d ds ih =>
    unfold isDuplicateUUIDLoop
    split
    · rename_i hSkip
      rw [ih]
      constructor
      · rintro ⟨o, ho, h⟩
        exact ⟨o, List.mem_cons_of_mem _ ho, h⟩
      · rintro ⟨o, ho, h1, h2, h3⟩
        rcases List.mem_cons.mp ho with rfl | ho
        · rcases hSkip with hSkip | hSkip
          · exact absurd h1 hSkip
          · exact absurd hSkip h2
        · exact ⟨o, ho, h1, h2, h3⟩
    · rename_i hKeep
      simp only [not_or, not_not, ne_eq] at hKeep
      split
      · rename_i hSame
        simp only [true_iff]
        exact ⟨d, List.mem_cons_self _ _, hKeep.1, hKeep.2, hSame⟩
      · rename_i hDiff
        rw [ih]
        constructor
        · rintro ⟨o, ho, h⟩
          exact ⟨o, List.mem_cons_of_mem _ ho, h⟩
        · rintro ⟨o, ho, h1, h2, h3⟩
          rcases List.mem_cons.mp ho with rfl | ho
          · exact absurd h3 hDiff
          · exact ⟨o, ho, h1, h2, h3⟩

theorem mem_store {repo : List DirectCSIDrive} {drive x : DirectCSIDrive} (h : x ∈ store repo drive) :
    x = drive ∨ (x ∈ repo ∧ x.Name ≠ drive.Name) := by
  unfold store at h
  rw [List.mem_map] at h
  obtain ⟨d, hd, hx⟩ := h
  by_cases hn : d.Name = drive.Name
  · left
    simpa [hn] using hx.symm
  · right
    simp only [hn, if_false] at hx
    subst hx
    exact ⟨hd, hn⟩

theorem store_store (repo : List DirectCSIDrive) (drive : DirectCSIDrive) :
    store (store repo drive) drive = store repo drive := by
  unfold store
  rw [List.map_map]
  apply List.map_congr_left
  intro d _
  by_cases hn : d.Name = drive.Name <;> simp [hn]

theorem applyWrites_same (handler : DriveEventHandler) (drive : DirectCSIDrive)
    (calls : List Call) (repo : List DirectCSIDrive)
    (hCalls : ∀ d, Call.DirectCSIDrivesUpdate d ∈ calls → d = drive) :
    applyWrites handler repo calls =
      if calls.any (Call.accepted handler) then store repo drive else repo := by
  induction calls generalizing repo with
  | nil => rfl
  | cons c cs ih =>
    have hTail : ∀ d, Call.DirectCSIDrivesUpdate d ∈ cs → d = drive :=
      fun d hd => hCalls d (List.mem_cons_of_mem _ hd)
    cases c with
    | DirectCSIDrivesUpdate d0 =>
      have hd0 : d0 = drive := hCalls d0 (List.mem_cons_self _ _)
      subst hd0
      unfold applyWrites
      by_cases hOk : (handler.updateDrive d0).isOk = true
      · simp only [hOk, if_true, List.any_cons, Call.accepted, Bool.true_or]
        rw [ih (store repo d0) hTail, store_store]
        split <;> rfl
      · simp only [hOk, List.any_cons, Call.accepted, Bool.false_or]
        exact ih repo hTail
    | _ =>
      unfold applyWrites
      simp only [List.any_cons, Call.accepted, Bool.false_or]
      exact ih repo hTail

theorem getFileSystemUUID_unique (im : Imports) (handler : DriveEventHandler)
    (drive : DirectCSIDrive) (repo : List DirectCSIDrive) (UUID : String) (calls : List Call)
    (hList : handler.listDrives = Except.ok repo)
    (hFresh : ∀ d ∈ repo, d.Status.FilesystemUUID ≠ im.uuidNewString)
    (h : getFileSystemUUID im handler drive = (Except.ok UUID, calls)) :
    ∀ y ∈ repo, y.Status.NodeName = handler.nodeID → y.Name ≠ drive.Name →
      y.Status.FilesystemUUID ≠ UUID := by
  intro y hy hNode hName
  by_cases hU : drive.Status.FilesystemUUID = ""
  · simp only [getFileSystemUUID, hU, if_true, Prod.mk.injEq, Except.ok.injEq] at h
    rw [← h.1]
    exact hFresh y hy
  · cases hD : isDuplicateUUIDLoop handler.nodeID drive.Name drive.Status.FilesystemUUID repo with
    | true =>
      simp only [getFileSystemUUID, isDuplicateUUID, hList, hU, hD, if_true, if_false,
        Prod.mk.injEq, Except.ok.injEq] at h
      rw [← h.1]
      exact hFresh y hy
    | false =>
      simp only [getFileSystemUUID, isDuplicateUUID, hList, hU, hD, if_false,
        Bool.false_eq_true, Prod.mk.injEq, Except.ok.injEq] at h
      rw [← h.1]
      intro hEq
      have := (isDuplicateUUIDLoop_iff handler.nodeID drive.Name drive.Status.FilesystemUUID
        repo).mpr ⟨y, hy, hNode, hName, hEq⟩
      rw [hD] at this
      cases this

theorem update_accepted (im : Imports) (handler : DriveEventHandler) (drive : DirectCSIDrive)
    (hAvailable : drive.Status.DriveStatus = DriveStatus.Available)
    (hErr : (update im handler drive).err = none) :
    (update im handler drive).calls.any (Call.accepted handler) = true := by
  cases hType : driveUpdateType drive with
  | DriveUpdateTypeUnknown => simp [update, hType] at hErr
  | DriveUpdateTypeOwnAndFormat =>
    have hGate : drive.Spec.DirectCSIOwned = true ∧ drive.Spec.RequestedFormat ≠ none := by
      simpa [driveUpdateType, ownAndFormat] using hType
    obtain ⟨rf, hrf⟩ := Option.ne_none_iff_exists'.mp hGate.2
    rw [update_available_eq im handler drive rf hAvailable hGate.1 hrf] at hErr ⊢
    rcases hG : getFileSystemUUID im handler drive with ⟨res, cs⟩
    rw [hG] at hErr
    cases res with
    | error e => simp at hErr
    | ok UUID =>
      simp only [passPersist_calls, passPersist_err] at hErr ⊢
      cases hU : handler.updateDrive (Pass.prepend cs (updatePass im handler drive rf UUID [])).drive with
      | error e => simp [hU] at hErr
      | ok d => simp [Call.accepted, hU, Except.isOk, Except.toBool]

theorem reconcile_unique (node : String) (repo : List DirectCSIDrive) (ready : List String)
    (r : Reconciliation) (hNode : r.handler.nodeID = node)
    (hFresh : ∀ d ∈ repo, d.Status.FilesystemUUID ≠ r.im.uuidNewString)
    (hInv : UniqueOnNode node repo ready) :
    UniqueOnNode node (reconcile repo r).1
      (if (reconcile repo r).2 then r.name :: ready else ready) := by
  unfold reconcile
  cases hFind : repo.find? (fun d => d.Name = r.name) with
  | none => simpa using hInv
  | some z =>
    have hz : z ∈ repo := List.mem_of_find?_eq_some hFind
    have hzName : z.Name = r.name := by simpa using List.find?_some hFind
    simp only
    have hWrites := update_writes r.im (r.connect repo) z
    rw [applyWrites_same (r.connect repo) (update r.im (r.connect repo) z).drive _ repo
      (fun d hd => by
        obtain ⟨_, _, _, _, _, _, h⟩ := hWrites d hd
        exact h.symm)]
    by_cases hAcc : (update r.im (r.connect repo) z).calls.any (Call.accepted (r.connect repo)) = true
    · simp only [hAcc, if_true]
      obtain ⟨c, hc, hcAcc⟩ := List.any_eq_true.mp hAcc
      cases c with
      | DirectCSIDrivesUpdate d =>
        obtain ⟨rf, UUID, cs, -, hG, hd, hdrive⟩ := hWrites d hc
        have hU := getFileSystemUUID_ne_empty _ _ _ UUID cs hG
        obtain ⟨-, hName, -, hUUID, -, -⟩ := updatePass_spec r.im (r.connect repo) z rf UUID hU
        rw [← hd] at hName hUUID
        rw [hdrive]
        have hK := getFileSystemUUID_unique r.im (r.connect repo) z repo UUID cs rfl hFresh hG
        have hNode' : (r.connect repo).nodeID = node := hNode
        rw [hNode', ← hUUID] at hK
        intro x hx y hy hxReady hxNode hyNode hNe
        rcases mem_store hx with hxd | ⟨hx', hxName⟩ <;>
          rcases mem_store hy with hyd | ⟨hy', hyName⟩
        · exact absurd (by rw [hxd, hyd]) hNe
        · rw [hxd]
          exact hK y hy' hyNode (by rw [← hName]; exact hyName)
        · rw [hyd]
          exact (hK x hx' hxNode (by rw [← hName]; exact hxName)).symm
        · refine hInv x hx' y hy' ?_ hxNode hyNode hNe
          have hxr : x.Name ≠ r.name := by rw [← hzName, ← hName]; exact hxName
          split at hxReady
          · rcases List.mem_cons.mp hxReady with h | h
            · exact absurd h hxr
            · exact h
          · exact hxReady
      | _ => simp [Call.accepted] at hcAcc
    · have hMade : (decide (z.Status.DriveStatus = DriveStatus.Available) &&
          (update r.im (r.connect repo) z).err.isNone) = false := by
        by_contra hne
        simp only [Bool.not_eq_false, Bool.and_eq_true, decide_eq_true_eq,
          Option.isNone_iff_eq_none] at hne
        exact hAcc (update_accepted _ _ _ hne.1 hne.2)
      simp only [hAcc, hMade]
      simpa using hInv

theorem reconcileAll_unique (node : String) (rs : List Reconciliation) :
    ∀ (repo : List DirectCSIDrive) (ready : List String),
      (∀ r ∈ rs, r.handler.nodeID = node) → freshAlong repo rs = true →
      UniqueOnNode node repo ready →
      UniqueOnNode node (reconcileAll (repo, ready) rs).1 (reconcileAll (repo, ready) rs).2 := by
  induction rs with
  | nil =>
    intro repo ready _ _ hInv
    exact hInv
  | cons r rs ih =>
    intro repo ready hNode hFresh hInv
    simp only [freshAlong, Bool.and_eq_true, List.all_eq_true, bne_iff_ne, ne_eq] at hFresh
    unfold reconcileAll
    exact ih _ _ (fun r' hr' => hNode r' (List.mem_cons_of_mem _ hr')) hFresh.2
      (reconcile_unique node repo ready r (hNode r (List.mem_cons_self _ _)) hFresh.1 hInv)

/-- What `getFileSystemUUID` computes when the repository list succeeds: with a
stored identifier, a fresh identifier is generated exactly when some listed
drive with another name whose node name equals `handler.nodeID` carries the
stored identifier, and the stored identifier is kept otherwise; without a
stored identifier a fresh one is generated and the repository is not queried. -/
theorem getFileSystemUUID_resolution (im : Imports) (handler : DriveEventHandler) (drive : DirectCSIDrive)
    (drives : List DirectCSIDrive)
    (hList : handler.listDrives = Except.ok drives) :
    (drive.Status.FilesystemUUID ≠ "" →
      (Call.uuidNew ∈ (getFileSystemUUID im handler drive).2 ↔
        ∃ other ∈ drives, other.Status.NodeName = handler.nodeID ∧ other.Name ≠ drive.Name ∧
          other.Status.FilesystemUUID = drive.Status.FilesystemUUID) ∧
      (getFileSystemUUID im handler drive).1 =
        (if Call.uuidNew ∈ (getFileSystemUUID im handler drive).2 then Except.ok im.uuidNewString
         else Except.ok drive.Status.FilesystemUUID) ∧
      Call.DirectCSIDrivesList ∈ (getFileSystemUUID im handler drive).2) ∧
    (drive.Status.FilesystemUUID = "" →
      getFileSystemUUID im handler drive = (Except.ok im.uuidNewString, [Call.uuidNew])) := by
  constructor
  · intro hU
    rw [← isDuplicateUUIDLoop_iff]
    cases hD : isDuplicateUUIDLoop handler.nodeID drive.Name drive.Status.FilesystemUUID drives <;>
      simp [getFileSystemUUID, isDuplicateUUID, hList, hU, hD]
  · intro hU
    simp [getFileSystemUUID, hU]

/-! ## Facts about the device runs of `update` -/

theorem updatePass_eq_devices (im : Imports) (handler : DriveEventHandler)
    (drive : DirectCSIDrive) (rf : RequestedFormatInfo) (UUID : String) :
    updatePass im handler drive rf UUID [] =
      passFinalize im (passConditions im (updateDevices im handler drive rf UUID)) := rfl

theorem updateDevices_run (im : Imports) (handler : DriveEventHandler) (drive : DirectCSIDrive)
    (rf : RequestedFormatInfo) (UUID : String) :
    DeviceRun im handler drive rf UUID (updateDevices im handler drive rf UUID) := by
  cases hMk : handler.MakeBlockFile (im.GetDirectCSIPath UUID) drive.Status.MajorNumber
      drive.Status.MinorNumber with
  | some e =>
    have h := @DeviceRun.blockFileFailed im handler drive rf UUID e
      (by simp [Call.succeeds, callMakeBlockFile, hMk]) hMk
    simpa [updateDevices, Pass.start, passMakeBlockFile, passFormat, passFormatDrive, passUnmount,
      passMount, passStatfs, DirectCSIDrive.withUUID, DirectCSIDrive.formattedAs,
      DirectCSIDrive.mountedAt, DirectCSIDrive.measured, unmountCalls, callMakeBlockFile,
      callUnmount, callFormat, callMount, callStatfs, hMk] using h
  | none =>
    by_cases hNeed : drive.Status.Filesystem = "" ∨ rf.Force = true
    · have hNeed' : (!(drive.Status.Filesystem != "") || rf.Force) = true := by
        rcases hNeed with h | h <;> simp [h]
      by_cases hMp : drive.Status.Mountpoint = ""
      · cases hFo : handler.FormatDrive UUID (im.GetDirectCSIPath UUID) rf.Force with
        | some e =>
          have h := @DeviceRun.formatFailed im handler drive rf UUID e
            (by simp [Call.succeeds, callMakeBlockFile, hMk]) hNeed (fun h => absurd hMp h)
            (by simp [Call.succeeds, callFormat, hFo]) hFo
          simpa [updateDevices, Pass.start, passMakeBlockFile, passFormat, passFormatDrive, passUnmount,
            passMount, passStatfs, DirectCSIDrive.withUUID, DirectCSIDrive.formattedAs,
            DirectCSIDrive.mountedAt, DirectCSIDrive.measured, unmountCalls, callMakeBlockFile,
            callUnmount, callFormat, callMount, callStatfs, hMk, hNeed', hMp, hFo] using h
        | none =>
          cases hMo : handler.MountDrive (im.GetDirectCSIPath UUID) (Join [im.MountRoot, UUID])
              rf.MountOptions with
          | some e =>
            have h := @DeviceRun.formattedMountFailed im handler drive rf UUID e
              (by simp [Call.succeeds, callMakeBlockFile, hMk]) hNeed (fun h => absurd hMp h)
              (by simp [Call.succeeds, callFormat, hFo]) (by simp [Call.succeeds, callMount, hMo])
              hMo
            simpa [updateDevices, Pass.start, passMakeBlockFile, passFormat, passFormatDrive, passUnmount,
              passMount, passStatfs, DirectCSIDrive.withUUID, DirectCSIDrive.formattedAs,
              DirectCSIDrive.mountedAt, DirectCSIDrive.measured, unmountCalls, callMakeBlockFile,
              callUnmount, callFormat, callMount, callStatfs, hMk, hNeed', hMp, hFo, hMo] using h
          | none =>
            cases hSt : handler.GetFreeCapacityFromStatfs (Join [im.MountRoot, UUID]) with
            | error e =>
              have h := @DeviceRun.formattedStatfsFailed im handler drive rf UUID e
                (by simp [Call.succeeds, callMakeBlockFile, hMk]) hNeed (fun h => absurd hMp h)
                (by simp [Call.succeeds, callFormat, hFo]) (by simp [Call.succeeds, callMount, hMo])
                (by simp [Call.succeeds, callStatfs, Except.isOk, Except.toBool, hSt]) hSt
              simpa [updateDevices, Pass.start, passMakeBlockFile, passFormat, passFormatDrive, passUnmount,
                passMount, passStatfs, DirectCSIDrive.withUUID, DirectCSIDrive.formattedAs,
                DirectCSIDrive.mountedAt, DirectCSIDrive.measured, unmountCalls, callMakeBlockFile,
                callUnmount, callFormat, callMount, callStatfs, hMk, hNeed', hMp, hFo, hMo, hSt] using h
            | ok free =>
              have h := @DeviceRun.formattedMounted im handler drive rf UUID free
                (by simp [Call.succeeds, callMakeBlockFile, hMk]) hNeed (fun h => absurd hMp h)
                (by simp [Call.succeeds, callFormat, hFo]) (by simp [Call.succeeds, callMount, hMo])
                (by simp [Call.succeeds, callStatfs, Except.isOk, Except.toBool, hSt]) hSt
              simpa [updateDevices, Pass.start, passMakeBlockFile, passFormat, passFormatDrive, passUnmount,
                passMount, passStatfs, DirectCSIDrive.withUUID, DirectCSIDrive.formattedAs,
                DirectCSIDrive.mountedAt, DirectCSIDrive.measured, unmountCalls, callMakeBlockFile,
                callUnmount, callFormat, callMount, callStatfs, hMk, hNeed', hMp, hFo, hMo, hSt] using h
      · have hMpB : (drive.Status.Mountpoint != "") = true := by simpa using hMp
        cases hUn : handler.UnmountDrive (im.GetDirectCSIPath UUID) with
        | some e =>
          have h := @DeviceRun.unmountFailed im handler drive rf UUID e
            (by simp [Call.succeeds, callMakeBlockFile, hMk]) hNeed hMp
            (by simp [Call.succeeds, callUnmount, hUn]) hUn
          simpa [updateDevices, Pass.start, passMakeBlockFile, passFormat, passFormatDrive, passUnmount,
            passMount, passStatfs, DirectCSIDrive.withUUID, DirectCSIDrive.formattedAs,
            DirectCSIDrive.mountedAt, DirectCSIDrive.measured, unmountCalls, callMakeBlockFile,
            callUnmount, callFormat, callMount, callStatfs, hMk, hNeed', hMp, hMpB, hUn] using h
        | none =>
          cases hFo : handler.FormatDrive UUID (im.GetDirectCSIPath UUID) rf.Force with
          | some e =>
            have h := @DeviceRun.formatFailed im handler drive rf UUID e
              (by simp [Call.succeeds, callMakeBlockFile, hMk]) hNeed
              (fun _ => by simp [Call.succeeds, callMakeBlockFile, callUnmount, callFormat, callMount, callStatfs,
      Except.isOk, Except.toBool, hUn]) (by simp [Call.succeeds, callFormat, hFo]) hFo
            simpa [updateDevices, Pass.start, passMakeBlockFile, passFormat, passFormatDrive, passUnmount,
              passMount, passStatfs, DirectCSIDrive.withUUID, DirectCSIDrive.formattedAs,
              DirectCSIDrive.mountedAt, DirectCSIDrive.measured, unmountCalls, callMakeBlockFile,
              callUnmount, callFormat, callMount, callStatfs, hMk, hNeed', hMp, hMpB, hUn, hFo] using h
          | none =>
            cases hMo : handler.MountDrive (im.GetDirectCSIPath UUID) (Join [im.MountRoot, UUID])
                rf.MountOptions with
            | some e =>
              have h := @DeviceRun.formattedMountFailed im handler drive rf UUID e
                (by simp [Call.succeeds, callMakeBlockFile, hMk]) hNeed
                (fun _ => by simp [Call.succeeds, callMakeBlockFile, callUnmount, callFormat, callMount, callStatfs,
      Except.isOk, Except.toBool, hUn]) (by simp [Call.succeeds, callFormat, hFo]) (by simp [Call.succeeds, callMount, hMo]) hMo
              simpa [updateDevices, Pass.start, passMakeBlockFile, passFormat, passFormatDrive, passUnmount,
                passMount, passStatfs, DirectCSIDrive.withUUID, DirectCSIDrive.formattedAs,
                DirectCSIDrive.mountedAt, DirectCSIDrive.measured, unmountCalls, callMakeBlockFile,
                callUnmount, callFormat, callMount, callStatfs, hMk, hNeed', hMp, hMpB, hUn, hFo, hMo] using h
            | none =>
              cases hSt : handler.GetFreeCapacityFromStatfs (Join [im.MountRoot, UUID]) with
              | error e =>
                have h := @DeviceRun.formattedStatfsFailed im handler drive rf UUID e
                  (by simp [Call.succeeds, callMakeBlockFile, hMk]) hNeed
                  (fun _ => by simp [Call.succeeds, callMakeBlockFile, callUnmount, callFormat, callMount, callStatfs,
      Except.isOk, Except.toBool, hUn]) (by simp [Call.succeeds, callFormat, hFo]) (by simp [Call.succeeds, callMount, hMo]) (by simp [Call.succeeds, callStatfs, Except.isOk, Except.toBool, hSt]) hSt
                simpa [updateDevices, Pass.start, passMakeBlockFile, passFormat, passFormatDrive, passUnmount,
                  passMount, passStatfs, DirectCSIDrive.withUUID, DirectCSIDrive.formattedAs,
                  DirectCSIDrive.mountedAt, DirectCSIDrive.measured, unmountCalls, callMakeBlockFile,
                  callUnmount, callFormat, callMount, callStatfs, hMk, hNeed', hMp, hMpB, hUn, hFo, hMo, hSt] using h
              | ok free =>
                have h := @DeviceRun.formattedMounted im handler drive rf UUID free
                  (by simp [Call.succeeds, callMakeBlockFile, hMk]) hNeed
                  (fun _ => by simp [Call.succeeds, callMakeBlockFile, callUnmount, callFormat, callMount, callStatfs,
      Except.isOk, Except.toBool, hUn]) (by simp [Call.succeeds, callFormat, hFo]) (by simp [Call.succeeds, callMount, hMo]) (by simp [Call.succeeds, callStatfs, Except.isOk, Except.toBool, hSt]) hSt
                simpa [updateDevices, Pass.start, passMakeBlockFile, passFormat, passFormatDrive, passUnmount,
                  passMount, passStatfs, DirectCSIDrive.withUUID, DirectCSIDrive.formattedAs,
                  DirectCSIDrive.mountedAt, DirectCSIDrive.measured, unmountCalls, callMakeBlockFile,
                  callUnmount, callFormat, callMount, callStatfs, hMk, hNeed', hMp, hMpB, hUn, hFo, hMo, hSt] using h
    · obtain ⟨hFs, hForce⟩ := not_or.mp hNeed
      have hForce' : rf.Force = false := by simpa using hForce
      have hFsB : (drive.Status.Filesystem != "") = true := by simpa using hFs
      by_cases hMp : drive.Status.Mountpoint = ""
      · cases hMo : handler.MountDrive (im.GetDirectCSIPath UUID) (Join [im.MountRoot, UUID])
            rf.MountOptions with
        | some e =>
          have h := @DeviceRun.keptMountFailed im handler drive rf UUID e
            (by simp [Call.succeeds, callMakeBlockFile, hMk]) hFs hForce' hMp
            (by simp [Call.succeeds, callMount, hMo]) hMo
          simpa [updateDevices, Pass.start, passMakeBlockFile, passFormat, passFormatDrive, passUnmount,
            passMount, passStatfs, DirectCSIDrive.withUUID, DirectCSIDrive.formattedAs,
            DirectCSIDrive.mountedAt, DirectCSIDrive.measured, unmountCalls, callMakeBlockFile,
            callUnmount, callFormat, callMount, callStatfs, hMk, hFs, hFsB, hForce', hMp, hMo] using h
        | none =>
          cases hSt : handler.GetFreeCapacityFromStatfs (Join [im.MountRoot, UUID]) with
          | error e =>
            have h := @DeviceRun.keptStatfsFailed im handler drive rf UUID e
              (by simp [Call.succeeds, callMakeBlockFile, hMk]) hFs hForce' hMp
              (by simp [Call.succeeds, callMount, hMo])
              (by simp [Call.succeeds, callStatfs, Except.isOk, Except.toBool, hSt]) hSt
            simpa [updateDevices, Pass.start, passMakeBlockFile, passFormat, passFormatDrive, passUnmount,
              passMount, passStatfs, DirectCSIDrive.withUUID, DirectCSIDrive.formattedAs,
              DirectCSIDrive.mountedAt, DirectCSIDrive.measured, unmountCalls, callMakeBlockFile,
              callUnmount, callFormat, callMount, callStatfs, hMk, hFs, hFsB, hForce', hMp, hMo, hSt] using h
          | ok free =>
            have h := @DeviceRun.keptThenMounted im handler drive rf UUID free
              (by simp [Call.succeeds, callMakeBlockFile, hMk]) hFs hForce' hMp
              (by simp [Call.succeeds, callMount, hMo])
              (by simp [Call.succeeds, callStatfs, Except.isOk, Except.toBool, hSt]) hSt
            simpa [updateDevices, Pass.start, passMakeBlockFile, passFormat, passFormatDrive, passUnmount,
              passMount, passStatfs, DirectCSIDrive.withUUID, DirectCSIDrive.formattedAs,
              DirectCSIDrive.mountedAt, DirectCSIDrive.measured, unmountCalls, callMakeBlockFile,
              callUnmount, callFormat, callMount, callStatfs, hMk, hFs, hFsB, hForce', hMp, hMo, hSt] using h
      · have hMpB : (drive.Status.Mountpoint != "") = true := by simpa using hMp
        have h := @DeviceRun.keptMounted im handler drive rf UUID
          (by simp [Call.succeeds, callMakeBlockFile, hMk]) hFs hForce' hMp
        simpa [updateDevices, Pass.start, passMakeBlockFile, passFormat, passFormatDrive, passUnmount,
          passMount, passStatfs, DirectCSIDrive.withUUID, DirectCSIDrive.formattedAs,
          DirectCSIDrive.mountedAt, DirectCSIDrive.measured, unmountCalls, callMakeBlockFile,
          callUnmount, callFormat, callMount, callStatfs, hMk, hFs, hFsB, hForce', hMp, hMpB] using h

theorem passFinalize_calls (im : Imports) (p : Pass) : (passFinalize im p).calls = p.calls := by
  unfold passFinalize
  split <;> rfl

theorem passFinalize_updateErr (im : Imports) (p : Pass) :
    (passFinalize im p).updateErr = p.updateErr := by
  unfold passFinalize
  split <;> rfl

/-- An `Available` drive that passes the gate and whose identifier is resolved:
`update` is one of the device runs, followed by the conditions, the promotion
and the repository update. -/
theorem update_available_run (im : Imports) (handler : DriveEventHandler)
    (drive : DirectCSIDrive) (rf : RequestedFormatInfo) (UUID : String) (cs : List Call)
    (hStatus : drive.Status.DriveStatus = DriveStatus.Available)
    (hOwned : drive.Spec.DirectCSIOwned = true)
    (hReq : drive.Spec.RequestedFormat = some rf)
    (hUUID : getFileSystemUUID im handler drive = (Except.ok UUID, cs)) :
    ∃ dev, DeviceRun im handler drive rf UUID dev ∧
      (update im handler drive).drive = (passFinalize im (passConditions im dev)).drive ∧
      (update im handler drive).calls =
        cs ++ dev.calls ++ [Call.DirectCSIDrivesUpdate (update im handler drive).drive] ∧
      (update im handler drive).err =
        (match handler.updateDrive (update im handler drive).drive with
         | Except.error e => some e
         | Except.ok _ => dev.updateErr) := by
  refine ⟨updateDevices im handler drive rf UUID, updateDevices_run im handler drive rf UUID, ?_⟩
  rw [update_available_eq im handler drive rf hStatus hOwned hReq, hUUID]
  simp only [passPersist_drive, passPersist_calls, passPersist_err, Pass.prepend,
    updatePass_eq_devices, passFinalize_calls, passFinalize_updateErr]
  exact ⟨trivial, rfl, rfl⟩

theorem getFileSystemUUID_ok_cases (im : Imports) (handler : DriveEventHandler)
    (drive : DirectCSIDrive) (UUID : String) (cs : List Call)
    (h : getFileSystemUUID im handler drive = (Except.ok UUID, cs)) :
    cs = [Call.uuidNew] ∨
    (handler.listDrives.isOk = true ∧
      (cs = [Call.DirectCSIDrivesList] ∨ cs = [Call.DirectCSIDrivesList, Call.uuidNew])) := by
  unfold getFileSystemUUID isDuplicateUUID at h
  simp only at h
  split at h
  · cases h
    exact Or.inl rfl
  · cases hL : handler.listDrives with
    | error e => simp [hL] at h
    | ok drives =>
      simp only [hL] at h
      split at h <;> cases h <;> simp [Except.isOk, Except.toBool]

/-- When the repository update of `update` is reached, the drive was Available
and passed the gate, the identifier was resolved, and the run is one of the
device runs followed by that update. -/
theorem update_reached (im : Imports) (handler : DriveEventHandler) (drive d : DirectCSIDrive)
    (h : Call.DirectCSIDrivesUpdate d ∈ (update im handler drive).calls) :
    ∃ rf UUID cs dev,
      drive.Status.DriveStatus = DriveStatus.Available ∧
      drive.Spec.DirectCSIOwned = true ∧ drive.Spec.RequestedFormat = some rf ∧
      getFileSystemUUID im handler drive = (Except.ok UUID, cs) ∧
      DeviceRun im handler drive rf UUID dev ∧
      d = (update im handler drive).drive ∧
      (update im handler drive).drive = (passFinalize im (passConditions im dev)).drive ∧
      (update im handler drive).calls = cs ++ dev.calls ++ [Call.DirectCSIDrivesUpdate d] ∧
      (update im handler drive).err =
        (match handler.updateDrive d with
         | Except.error e => some e
         | Except.ok _ => dev.updateErr) := by
  obtain ⟨rf0, UUID, cs, hAvailable, hG, -, hd⟩ := update_writes im handler drive d h
  cases hType : driveUpdateType drive with
  | DriveUpdateTypeUnknown => simp [update, hType] at h
  | DriveUpdateTypeOwnAndFormat =>
    have hGate : drive.Spec.DirectCSIOwned = true ∧ drive.Spec.RequestedFormat ≠ none := by
      simpa [driveUpdateType, ownAndFormat] using hType
    obtain ⟨rf, hrf⟩ := Option.ne_none_iff_exists'.mp hGate.2
    obtain ⟨dev, hRun, hDrive, hCalls, hErr⟩ :=
      update_available_run im handler drive rf UUID cs hAvailable hGate.1 hrf hG
    refine ⟨rf, UUID, cs, dev, hAvailable, hGate.1, hrf, hG, hRun, hd.symm, hDrive, ?_, ?_⟩
    · rw [← hd]
      exact hCalls
    · rw [← hd]
      exact hErr

theorem deviceRun_failure (im : Imports) (handler : DriveEventHandler) (drive : DirectCSIDrive)
    (rf : RequestedFormatInfo) (UUID : String) (dev : Pass)
    (hRun : DeviceRun im handler drive rf UUID dev) :
    dev.updateErr = dev.calls.findSome? (Call.failure handler drive.Name) := by
  by_cases hMp : drive.Status.Mountpoint = "" <;>
  cases hRun <;>
  simp_all [Call.failure, Call.succeeds, callMakeBlockFile, callUnmount, callFormat, callMount,
    callStatfs, unmountCalls, Except.isOk, Except.toBool]

theorem deviceRun_succeeds (im : Imports) (handler : DriveEventHandler) (drive : DirectCSIDrive)
    (rf : RequestedFormatInfo) (UUID : String) (dev : Pass)
    (hRun : DeviceRun im handler drive rf UUID dev) :
    dev.updateErr = none ↔ ∀ c ∈ dev.calls, c.succeeds im handler = true := by
  by_cases hMp : drive.Status.Mountpoint = "" <;>
  cases hRun <;>
  simp_all [callMakeBlockFile, callUnmount, callFormat, callMount, callStatfs, unmountCalls]

theorem resolution_calls_failure (handler : DriveEventHandler) (name : String) (cs : List Call)
    (h : ∀ c ∈ cs, c = Call.DirectCSIDrivesList ∨ c = Call.uuidNew) :
    cs.findSome? (Call.failure handler name) = none := by
  rw [List.findSome?_eq_none_iff]
  intro c hc
  rcases h c hc with rfl | rfl <;> rfl

theorem resolution_calls_succeed (im : Imports) (handler : DriveEventHandler)
    (drive : DirectCSIDrive) (UUID : String) (cs : List Call)
    (h : getFileSystemUUID im handler drive = (Except.ok UUID, cs)) :
    ∀ c ∈ cs, c.succeeds im handler = true := by
  intro c hc
  rcases getFileSystemUUID_ok_cases im handler drive UUID cs h with rfl | ⟨hList, rfl | rfl⟩
  · simp only [List.mem_singleton] at hc
    subst hc
    rfl
  · simp only [List.mem_singleton] at hc
    subst hc
    exact hList
  · simp only [List.mem_cons, List.mem_singleton, List.not_mem_nil, or_false] at hc
    rcases hc with rfl | rfl
    · exact hList
    · rfl

/-- A run of `update` either reaches its repository update, or makes no device
operation and no repository update and leaves the drive as it was. -/
theorem update_reached_or_not (im : Imports) (handler : DriveEventHandler)
    (drive : DirectCSIDrive) :
    (∃ d, Call.DirectCSIDrivesUpdate d ∈ (update im handler drive).calls) ∨
    ((∀ c ∈ (update im handler drive).calls, c = Call.DirectCSIDrivesList) ∧
      (update im handler drive).drive = drive) := by
  cases hType : driveUpdateType drive with
  | DriveUpdateTypeUnknown => simp [update, hType]
  | DriveUpdateTypeOwnAndFormat =>
    have hGate : drive.Spec.DirectCSIOwned = true ∧ drive.Spec.RequestedFormat ≠ none := by
      simpa [driveUpdateType, ownAndFormat] using hType
    obtain ⟨rf, hrf⟩ := Option.ne_none_iff_exists'.mp hGate.2
    by_cases hAvailable : drive.Status.DriveStatus = DriveStatus.Available
    · rw [update_available_eq im handler drive rf hAvailable hGate.1 hrf]
      rcases hG : getFileSystemUUID im handler drive with ⟨res, cs⟩
      cases res with
      | ok UUID =>
        exact Or.inl ⟨(Pass.prepend cs (updatePass im handler drive rf UUID [])).drive,
          by simp [passPersist_calls]⟩
      | error e =>
        right
        refine ⟨?_, rfl⟩
        intro c hc
        simp only at hc
        unfold getFileSystemUUID at hG
        simp only at hG
        split at hG
        · cases hG
        · split at hG
          · cases hG
            simpa using hc
          · split at hG <;> cases hG
    · right
      simp only [update, hType, hrf]
      split <;> simp_all

theorem deviceRun_deviceOps (im : Imports) (handler : DriveEventHandler) (drive : DirectCSIDrive)
    (rf : RequestedFormatInfo) (UUID : String) (dev : Pass)
    (hRun : DeviceRun im handler drive rf UUID dev) :
    ∀ c ∈ dev.calls, c.isDeviceOp = true ∧ c.isUpdate = false := by
  by_cases hMp : drive.Status.Mountpoint = "" <;>
  cases hRun <;>
  simp [callMakeBlockFile, callUnmount, callFormat, callMount, callStatfs, unmountCalls, hMp,
    Call.isDeviceOp, Call.isUpdate]

theorem deviceRun_short_circuit (im : Imports) (handler : DriveEventHandler)
    (drive : DirectCSIDrive) (rf : RequestedFormatInfo) (UUID : String) (dev : Pass)
    (hRun : DeviceRun im handler drive rf UUID dev) :
    ∀ c ∈ dev.calls.dropLast, c.succeeds im handler = true := by
  by_cases hMp : drive.Status.Mountpoint = "" <;>
  cases hRun <;>
  simp_all [unmountCalls]

theorem deviceRun_ordered (im : Imports) (handler : DriveEventHandler)
    (drive : DirectCSIDrive) (rf : RequestedFormatInfo) (UUID : String) (dev : Pass)
    (hRun : DeviceRun im handler drive rf UUID dev) :
    dev.calls.Pairwise (fun a b => a.rank < b.rank) := by
  by_cases hMp : drive.Status.Mountpoint = "" <;>
  cases hRun <;>
  simp [callMakeBlockFile, callUnmount, callFormat, callMount, callStatfs, unmountCalls, hMp,
    Call.rank]

theorem deviceRun_unmount_first (im : Imports) (handler : DriveEventHandler)
    (drive : DirectCSIDrive) (rf : RequestedFormatInfo) (UUID : String) (dev : Pass)
    (hRun : DeviceRun im handler drive rf UUID dev)
    (hMp : drive.Status.Mountpoint ≠ "") (u s : String) (f : Bool)
    (hFormat : Call.FormatDrive u s f ∈ dev.calls) :
    (callUnmount im UUID).succeeds im handler = true ∧
    dev.calls = [callMakeBlockFile im drive UUID, callUnmount im UUID] ++ dev.calls.drop 2 ∧
    Call.FormatDrive u s f ∈ dev.calls.drop 2 := by
  cases hRun <;>
  simp_all [callMakeBlockFile, callUnmount, callFormat, callMount, callStatfs, unmountCalls]

/-- The device operations in the trace of a run that reaches the repository
update are the calls of its device run. -/
theorem update_deviceOps (im : Imports) (handler : DriveEventHandler) (drive d : DirectCSIDrive)
    (rf : RequestedFormatInfo) (UUID : String) (cs : List Call) (dev : Pass)
    (hG : getFileSystemUUID im handler drive = (Except.ok UUID, cs))
    (hRun : DeviceRun im handler drive rf UUID dev)
    (hCalls : (update im handler drive).calls = cs ++ dev.calls ++ [Call.DirectCSIDrivesUpdate d]) :
    (update im handler drive).calls.filter Call.isDeviceOp = dev.calls := by
  have hcs : cs.filter Call.isDeviceOp = [] := by
    rw [List.filter_eq_nil_iff]
    intro c hc
    have h := getFileSystemUUID_calls im handler drive
    rw [hG] at h
    rcases h c hc with rfl | rfl <;> simp [Call.isDeviceOp]
  have hdev : dev.calls.filter Call.isDeviceOp = dev.calls := by
    rw [List.filter_eq_self]
    intro c hc
    exact (deviceRun_deviceOps im handler drive rf UUID dev hRun c hc).1
  rw [hCalls, List.filter_append, List.filter_append, hcs, hdev]
  simp [Call.isDeviceOp]

theorem update_unreached_deviceOps (im : Imports) (handler : DriveEventHandler)
    (drive : DirectCSIDrive)
    (h : ∀ c ∈ (update im handler drive).calls, c = Call.DirectCSIDrivesList) :
    (update im handler drive).calls.filter Call.isDeviceOp = [] := by
  rw [List.filter_eq_nil_iff]
  intro c hc
  rw [h c hc]
  simp [Call.isDeviceOp]

theorem passFinalize_conditions (im : Imports) (p : Pass) :
    (passFinalize im (passConditions im p)).drive.Status.Conditions =
      conditionsOf im p.formatted p.mounted p.updateErr := by
  cases hE : p.updateErr <;>
    simp [passFinalize, passConditions, UpdateCondition, conditionsOf, hE]

theorem passFinalize_capacity (im : Imports) (p : Pass) :
    (passFinalize im (passConditions im p)).drive.Status.FreeCapacity =
      p.drive.Status.FreeCapacity ∧
    (passFinalize im (passConditions im p)).drive.Status.AllocatedCapacity =
      p.drive.Status.AllocatedCapacity ∧
    (passFinalize im (passConditions im p)).drive.Status.TotalCapacity =
      p.drive.Status.TotalCapacity ∧
    (passFinalize im (passConditions im p)).drive.Status.Filesystem =
      p.drive.Status.Filesystem ∧
    (passFinalize im (passConditions im p)).drive.Status.Mountpoint =
      p.drive.Status.Mountpoint := by
  cases hE : p.updateErr <;> simp [passFinalize, passConditions, hE]

theorem wrapInt64_of_range (x : Int) (hLow : -(2 ^ 63) ≤ x) (hHigh : x < 2 ^ 63) :
    wrapInt64 x = x := by
  unfold wrapInt64
  have h : (x + 2 ^ 63) % 2 ^ 64 = x + 2 ^ 63 :=
    Int.emod_eq_of_lt (by omega) (by omega)
  omega

theorem deviceRun_measured (im : Imports) (handler : DriveEventHandler) (drive : DirectCSIDrive)
    (rf : RequestedFormatInfo) (UUID : String) (dev : Pass)
    (hRun : DeviceRun im handler drive rf UUID dev)
    (s t : String) (o : List String) (mp : String) (free : Int)
    (hMount : Call.MountDrive s t o ∈ dev.calls)
    (hStat : Call.GetFreeCapacityFromStatfs mp ∈ dev.calls)
    (hStatOk : handler.GetFreeCapacityFromStatfs mp = Except.ok free) :
    dev.drive.Status.FreeCapacity = free ∧
    dev.drive.Status.AllocatedCapacity = wrapInt64 (drive.Status.TotalCapacity - free) ∧
    dev.drive.Status.TotalCapacity = drive.Status.TotalCapacity := by
  by_cases hMp : drive.Status.Mountpoint = "" <;>
  cases hRun <;>
  simp_all [callMakeBlockFile, callUnmount, callFormat, callMount, callStatfs, unmountCalls,
    Call.succeeds, DirectCSIDrive.withUUID, DirectCSIDrive.formattedAs, DirectCSIDrive.mountedAt,
    DirectCSIDrive.measured, Except.isOk, Except.toBool]

theorem deviceRun_reset (im : Imports) (handler : DriveEventHandler) (drive : DirectCSIDrive)
    (rf : RequestedFormatInfo) (UUID : String) (dev : Pass)
    (hRun : DeviceRun im handler drive rf UUID dev)
    (u s : String) (f : Bool) (c : Call)
    (hFormat : Call.FormatDrive u s f ∈ dev.calls) (hFormatOk : handler.FormatDrive u s f = none)
    (hc : c ∈ dev.calls)
    (hFails : c.succeeds im handler = false) :
    dev.drive.Status.AllocatedCapacity = 0 := by
  have hErr : dev.updateErr ≠ none := by
    intro hNone
    have hAll := (deviceRun_succeeds im handler drive rf UUID dev hRun).mp hNone c hc
    rw [hAll] at hFails
    cases hFails
  clear hc hFails
  by_cases hMp : drive.Status.Mountpoint = "" <;>
  cases hRun <;>
  simp_all [callMakeBlockFile, callUnmount, callFormat, callMount, callStatfs, unmountCalls,
    Call.succeeds, DirectCSIDrive.withUUID, DirectCSIDrive.formattedAs, DirectCSIDrive.mountedAt,
    DirectCSIDrive.measured, Except.isOk, Except.toBool]

theorem update_deviceOp_mem (im : Imports) (handler : DriveEventHandler) (drive d : DirectCSIDrive)
    (rf : RequestedFormatInfo) (UUID : String) (cs : List Call) (dev : Pass)
    (hG : getFileSystemUUID im handler drive = (Except.ok UUID, cs))
    (hRun : DeviceRun im handler drive rf UUID dev)
    (hCalls : (update im handler drive).calls = cs ++ dev.calls ++ [Call.DirectCSIDrivesUpdate d])
    (c : Call) (hc : c ∈ (update im handler drive).calls) (hOp : c.isDeviceOp = true) :
    c ∈ dev.calls := by
  rw [← update_deviceOps im handler drive d rf UUID cs dev hG hRun hCalls]
  exact List.mem_filter.mpr ⟨hc, hOp⟩

theorem passFinalize_uuid (im : Imports) (p : Pass) :
    (passFinalize im (passConditions im p)).drive.Status.FilesystemUUID =
      p.drive.Status.FilesystemUUID := by
  cases hE : p.updateErr <;> simp [passFinalize, passConditions, hE]

theorem deviceRun_uuid (im : Imports) (handler : DriveEventHandler) (drive : DirectCSIDrive)
    (rf : RequestedFormatInfo) (UUID : String) (dev : Pass)
    (hRun : DeviceRun im handler drive rf UUID dev) :
    dev.drive.Status.FilesystemUUID = UUID := by
  cases hRun <;>
  simp [DirectCSIDrive.withUUID, DirectCSIDrive.formattedAs, DirectCSIDrive.mountedAt,
    DirectCSIDrive.measured]

theorem filter_isFormat_deviceOps (cs : List Call) :
    (cs.filter Call.isDeviceOp).filter Call.isFormat = cs.filter Call.isFormat := by
  rw [List.filter_filter]
  congr 1
  funext c
  cases c <;> rfl

/-- A run on a formatted drive without the force flag makes no format and no
unmount call and keeps the filesystem; the allocated capacity changes only to
the difference that follows a successful statfs. -/
theorem deviceRun_no_format (im : Imports) (handler : DriveEventHandler) (drive : DirectCSIDrive)
    (rf : RequestedFormatInfo) (UUID : String) (dev : Pass)
    (hRun : DeviceRun im handler drive rf UUID dev)
    (hFs : drive.Status.Filesystem ≠ "") (hForce : rf.Force = false) :
    (∀ c ∈ dev.calls, c.isFormat = false ∧ c.isUnmount = false) ∧
    dev.drive.Status.Filesystem = drive.Status.Filesystem ∧
    (dev.drive.Status.AllocatedCapacity = drive.Status.AllocatedCapacity ∨
      ∃ mp free, Call.GetFreeCapacityFromStatfs mp ∈ dev.calls ∧
        handler.GetFreeCapacityFromStatfs mp = Except.ok free ∧
        dev.drive.Status.AllocatedCapacity = wrapInt64 (drive.Status.TotalCapacity - free)) := by
  cases hRun <;>
  simp_all [callMakeBlockFile, callUnmount, callFormat, callMount, callStatfs, unmountCalls,
    Call.isFormat, Call.isUnmount, DirectCSIDrive.withUUID, DirectCSIDrive.formattedAs,
    DirectCSIDrive.mountedAt, DirectCSIDrive.measured]

/-- A run that has to format, whose block file is created and whose unmount
(made when the drive is mounted) succeeds, makes exactly one format call. -/
theorem deviceRun_format_once (im : Imports) (handler : DriveEventHandler)
    (drive : DirectCSIDrive) (rf : RequestedFormatInfo) (UUID : String) (dev : Pass)
    (hRun : DeviceRun im handler drive rf UUID dev)
    (hNeed : drive.Status.Filesystem = "" ∨ rf.Force = true)
    (hMk : ∃ path major minor, Call.MakeBlockFile path major minor ∈ dev.calls ∧
      handler.MakeBlockFile path major minor = none)
    (hUn : ∀ source, Call.UnmountDrive source ∈ dev.calls → handler.UnmountDrive source = none) :
    dev.calls.filter Call.isFormat = [Call.FormatDrive UUID (im.GetDirectCSIPath UUID) rf.Force] := by
  obtain ⟨path, major, minor, hIn, hOk⟩ := hMk
  by_cases hMp : drive.Status.Mountpoint = "" <;>
  cases hRun <;>
  simp_all [callMakeBlockFile, callUnmount, callFormat, callMount, callStatfs, unmountCalls,
    Call.isFormat, Call.succeeds, Except.isOk, Except.toBool]

theorem update_of_closed_gate (im : Imports) (handler : DriveEventHandler) (drive : DirectCSIDrive)
    (hGate : ¬(drive.Spec.DirectCSIOwned = true ∧ drive.Spec.RequestedFormat ≠ none)) :
    update im handler drive =
      { err := some "Unknown update type", drive := drive, calls := [] } := by
  have hType : driveUpdateType drive = DriveUpdateType.DriveUpdateTypeUnknown := by
    simpa [driveUpdateType, ownAndFormat] using hGate
  simp [update, hType]

theorem passFinalize_promoted (im : Imports) (p : Pass) (h : p.updateErr = none) :
    (passFinalize im (passConditions im p)).drive.Finalizers =
      [im.DirectCSIDriveFinalizerDataProtection] ∧
    (passFinalize im (passConditions im p)).drive.Spec.RequestedFormat = none ∧
    (passFinalize im (passConditions im p)).drive.Status.DriveStatus = DriveStatus.Ready := by
  simp [passFinalize, passConditions, h]

/-- A call of `update` that returns no error without reaching the repository
update is the rejection of a drive that is not Available, whatever the
collaborators. -/
theorem update_ok_unreached (im : Imports) (handler : DriveEventHandler) (drive : DirectCSIDrive)
    (hOk : (update im handler drive).err = none)
    (hNo : ∀ d, Call.DirectCSIDrivesUpdate d ∉ (update im handler drive).calls) :
    drive.Status.DriveStatus ≠ DriveStatus.Available ∧
    ∀ im2 handler2, update im2 handler2 drive = { err := none, drive := drive, calls := [] } := by
  cases hType : driveUpdateType drive with
  | DriveUpdateTypeUnknown => simp [update, hType] at hOk
  | DriveUpdateTypeOwnAndFormat =>
    have hGate : drive.Spec.DirectCSIOwned = true ∧ drive.Spec.RequestedFormat ≠ none := by
      simpa [driveUpdateType, ownAndFormat] using hType
    obtain ⟨rf, hrf⟩ := Option.ne_none_iff_exists'.mp hGate.2
    by_cases hA : drive.Status.DriveStatus = DriveStatus.Available
    · exfalso
      rw [update_available_eq im handler drive rf hA hGate.1 hrf] at hOk hNo
      rcases hG : getFileSystemUUID im handler drive with ⟨res, cs⟩
      rw [hG] at hOk hNo
      cases res with
      | error e => simp at hOk
      | ok UUID =>
        apply hNo
        simp only [passPersist_calls]
        exact List.mem_append_right _ (List.mem_singleton.mpr rfl)
    · refine ⟨hA, fun im2 handler2 => ?_⟩
      simp only [update, hType, hrf]
      split <;> simp_all

/-! ## The claims -/

/-- C1: a drive owned by the controller with a pending format request whose
status is Released, Unavailable, Ready, Terminating or InUse is left untouched
by an Add or Update event: no error is returned, no collaborator is called (so
no device operation and no repository update), and the object is unchanged. -/
theorem update_rejects_non_available (im : Imports) (handler : DriveEventHandler)
    (drive : DirectCSIDrive) (event : EventType)
    (hEvent : event = EventType.AddEvent ∨ event = EventType.UpdateEvent)
    (hOwned : drive.Spec.DirectCSIOwned = true)
    (hReq : drive.Spec.RequestedFormat ≠ none)
    (hStatus : drive.Status.DriveStatus ∈ [DriveStatus.Released, DriveStatus.Unavailable,
      DriveStatus.Ready, DriveStatus.Terminating, DriveStatus.InUse]) :
    Handle im handler event drive = { err := none, drive := drive, calls := [] } := by
  have hType := driveUpdateType_of_gate drive hOwned hReq
  obtain ⟨rf, hrf⟩ := Option.ne_none_iff_exists'.mp hReq
  have hUpd : update im handler drive = { err := none, drive := drive, calls := [] } := by
    simp only [update, hType, hrf]
    simp only [List.mem_cons, List.mem_singleton, List.not_mem_nil, or_false] at hStatus
    rcases hStatus with h | h | h | h | h <;> simp [h]
  rcases hEvent with h | h <;> simp [Handle, h, hUpd]

/-- C1 at the drive `d2` of the spec's scenario (status InUse), Update event. -/
theorem update_rejects_non_available_witness :
    Handle sampleImports (sampleHandler []) EventType.UpdateEvent
        (sampleDrive "d2" DriveStatus.InUse) =
      { err := none, drive := sampleDrive "d2" DriveStatus.InUse, calls := [] } :=
  update_rejects_non_available sampleImports (sampleHandler []) (sampleDrive "d2" DriveStatus.InUse)
    EventType.UpdateEvent (Or.inr rfl) rfl (by decide) (by decide)

/-- C2: on an Available drive owned by the controller with a pending request and
empty identifier, filesystem and mountpoint, when every call made in the pass
succeeds, `update` returns no error and the object handed to the repository has
the newly generated, non-empty identifier, the xfs filesystem type, the
mountpoint `MountRoot/<identifier>`, the requested mount options, status Ready,
the data-protection finalizer as its only finalizer, and no pending request. -/
theorem update_formats_available (im : Imports) (handler : DriveEventHandler)
    (drive : DirectCSIDrive) (rf : RequestedFormatInfo)
    (hStatus : drive.Status.DriveStatus = DriveStatus.Available)
    (hOwned : drive.Spec.DirectCSIOwned = true)
    (hReq : drive.Spec.RequestedFormat = some rf)
    (hUUID : drive.Status.FilesystemUUID = "")
    (hFs : drive.Status.Filesystem = "")
    (hMp : drive.Status.Mountpoint = "")
    (hAll : ∀ c ∈ (update im handler drive).calls, c.succeeds im handler = true) :
    (update im handler drive).err = none ∧
    (update im handler drive).calls.getLast? =
      some (Call.DirectCSIDrivesUpdate (update im handler drive).drive) ∧
    (update im handler drive).drive.Status.FilesystemUUID = im.uuidNewString ∧
    im.uuidNewString ≠ "" ∧
    (update im handler drive).drive.Status.Filesystem = im.FSTypeXFS ∧
    (update im handler drive).drive.Status.Mountpoint = Join [im.MountRoot, im.uuidNewString] ∧
    (update im handler drive).drive.Status.MountOptions = rf.MountOptions ∧
    (update im handler drive).drive.Status.DriveStatus = DriveStatus.Ready ∧
    (update im handler drive).drive.Finalizers = [im.DirectCSIDriveFinalizerDataProtection] ∧
    (update im handler drive).drive.Spec.RequestedFormat = none := by
  have hType := driveUpdateType_of_gate drive hOwned (by simp [hReq])
  have hEq : update im handler drive =
      passPersist handler (updatePass im handler drive rf im.uuidNewString [Call.uuidNew]) := by
    simp [update, hType, hReq, hStatus, getFileSystemUUID, hUUID]
  rw [hEq] at hAll ⊢
  have hNe := uuidNewString_ne_empty im
  cases hM : handler.MakeBlockFile (im.GetDirectCSIPath im.uuidNewString)
      drive.Status.MajorNumber drive.Status.MinorNumber <;>
  cases hF : handler.FormatDrive im.uuidNewString (im.GetDirectCSIPath im.uuidNewString) rf.Force <;>
  cases hMo : handler.MountDrive (im.GetDirectCSIPath im.uuidNewString)
      (Join [im.MountRoot, im.uuidNewString]) rf.MountOptions <;>
  cases hS : handler.GetFreeCapacityFromStatfs (Join [im.MountRoot, im.uuidNewString]) <;>
  simp [passPersist_calls, passPersist_drive, updatePass, passMakeBlockFile, passFormat,
    passFormatDrive, passUnmount, passMount, passStatfs, passConditions, passFinalize, hFs, hMp,
    hM, hF, hMo, hS, Call.succeeds, Except.isOk, Except.toBool] at hAll ⊢
  rw [passPersist_err_of_ok _ _ (by simpa [updatePass, passMakeBlockFile, passFormat,
    passFormatDrive, passUnmount, passMount, passStatfs, passConditions, passFinalize, hFs, hMp,
    hM, hF, hMo, hS] using hAll)]
  simp [updatePass, passMakeBlockFile, passFormat,
    passFormatDrive, passUnmount, passMount, passStatfs, passConditions, passFinalize, hFs, hMp,
    hM, hF, hMo, hS, hNe]

/-- C2 at the drive `d1` of the spec's scenario. -/
theorem update_formats_available_witness :
    (update sampleImports (sampleHandler []) (sampleDrive "d1" DriveStatus.Available)).err = none ∧
    (update sampleImports (sampleHandler []) (sampleDrive "d1" DriveStatus.Available)).drive =
      { Name := "d1"
        Finalizers := ["data-protection"]
        Spec := { DirectCSIOwned := true, RequestedFormat := none }
        Status :=
          { NodeName := "n1", DriveStatus := DriveStatus.Ready,
            FilesystemUUID := "01020304-0506-4708-890a-0b0c0d0e0f10", Filesystem := "xfs",
            Mountpoint := "/mnt/01020304-0506-4708-890a-0b0c0d0e0f10", MountOptions := ["noatime"],
            TotalCapacity := 100, FreeCapacity := 60, AllocatedCapacity := 40,
            MajorNumber := 8, MinorNumber := 16,
            Conditions :=
              { Owned := ⟨ConditionStatus.True, "Added", ""⟩
                Mounted := ⟨ConditionStatus.True, "Added", "mounted"⟩
                Formatted := ⟨ConditionStatus.True, "Added", "formatted"⟩ } } } :=
  ⟨(update_formats_available sampleImports (sampleHandler [])
      (sampleDrive "d1" DriveStatus.Available) { Force := false, MountOptions := ["noatime"] }
      rfl rfl rfl rfl rfl rfl (by decide)).1, by decide⟩

/-- C3: on an Available drive that passes the entry gate, when format is invoked
and succeeds, every mount invoked fails with `mountErr`, and the repository
update succeeds, the object handed to the repository has condition Formatted
true, Mounted false and Owned false, status still Available and the request
still set; `update` returns the mount error (wrapped with the drive name), and
the mount was indeed invoked. -/
theorem update_mount_failure (im : Imports) (handler : DriveEventHandler)
    (drive : DirectCSIDrive) (rf : RequestedFormatInfo) (uuid source : String) (force : Bool)
    (mountErr : Error)
    (hStatus : drive.Status.DriveStatus = DriveStatus.Available)
    (hOwned : drive.Spec.DirectCSIOwned = true)
    (hReq : drive.Spec.RequestedFormat = some rf)
    (hFormat : Call.FormatDrive uuid source force ∈ (update im handler drive).calls)
    (hFormatOk : handler.FormatDrive uuid source force = none)
    (hMount : ∀ s t o, Call.MountDrive s t o ∈ (update im handler drive).calls →
      handler.MountDrive s t o = some mountErr)
    (hUpdate : ∀ d, Call.DirectCSIDrivesUpdate d ∈ (update im handler drive).calls →
      (handler.updateDrive d).isOk = true) :
    (update im handler drive).calls.getLast? =
      some (Call.DirectCSIDrivesUpdate (update im handler drive).drive) ∧
    (update im handler drive).drive.Status.Conditions.Formatted.Status = ConditionStatus.True ∧
    (update im handler drive).drive.Status.Conditions.Mounted.Status = ConditionStatus.False ∧
    (update im handler drive).drive.Status.Conditions.Owned.Status = ConditionStatus.False ∧
    (update im handler drive).drive.Status.DriveStatus = DriveStatus.Available ∧
    (update im handler drive).drive.Spec.RequestedFormat = some rf ∧
    (update im handler drive).err =
      some ("failed to mount drive: " ++ drive.Name ++ " " ++ mountErr) ∧
    Call.MountDrive source (Join [im.MountRoot, uuid]) rf.MountOptions ∈
      (update im handler drive).calls := by
  rw [update_available_eq im handler drive rf hStatus hOwned hReq] at *
  have hCalls := getFileSystemUUID_calls im handler drive
  rcases hG : getFileSystemUUID im handler drive with ⟨res, cs⟩
  rw [hG] at hCalls hFormat hMount hUpdate
  cases res with
  | error e =>
    simp only at hFormat
    rcases hCalls _ hFormat with h | h <;> cases h
  | ok U =>
    simp only at hFormat hMount hUpdate hCalls ⊢
    have hU := hUpdate (Pass.prepend cs (updatePass im handler drive rf U [])).drive
      (by simp [passPersist_calls])
    rw [passPersist_err_of_ok _ _ hU]
    simp only [passPersist_calls, passPersist_drive] at hFormat hMount ⊢
    clear hUpdate hU
    have hNot : Call.FormatDrive uuid source force ∉ cs := fun h => by
      rcases hCalls _ h with h | h <;> cases h
    have hNotM : ∀ s t o, Call.MountDrive s t o ∉ cs := fun s t o h => by
      rcases hCalls _ h with h | h <;> cases h
    cases hMk : handler.MakeBlockFile (im.GetDirectCSIPath U)
      drive.Status.MajorNumber drive.Status.MinorNumber with
    | some e =>
      simp [Pass.prepend, updatePass, passMakeBlockFile, passFormat, passMount, passConditions,
        passFinalize, hMk, hNot] at hFormat
    | none =>
      by_cases hDo : drive.Status.Filesystem = "" ∨ rf.Force = true
      · have hUn : drive.Status.Mountpoint ≠ "" →
            handler.UnmountDrive (im.GetDirectCSIPath U) = none := by
          intro hMp
          cases hUn : handler.UnmountDrive (im.GetDirectCSIPath U) with
          | none => rfl
          | some e =>
            simp [Pass.prepend, updatePass, passMakeBlockFile, passFormat, passFormatDrive,
              passUnmount, passMount, passConditions, passFinalize, hMk, hNot, hDo, hMp,
              hUn] at hFormat
        have hArgs : uuid = U ∧ source = im.GetDirectCSIPath U ∧ force = rf.Force := by
          by_cases hMp : drive.Status.Mountpoint = ""
          · cases hFo : handler.FormatDrive U (im.GetDirectCSIPath U) rf.Force <;>
            cases hMo : handler.MountDrive (im.GetDirectCSIPath U) (Join [im.MountRoot, U])
              rf.MountOptions <;>
            cases hS : handler.GetFreeCapacityFromStatfs (Join [im.MountRoot, U]) <;>
            simpa [Pass.prepend, updatePass, passMakeBlockFile, passFormat, passFormatDrive,
              passUnmount, passMount, passStatfs, passConditions, passFinalize, hMk, hNot, hDo,
              hMp, hFo, hMo, hS] using hFormat
          · cases hFo : handler.FormatDrive U (im.GetDirectCSIPath U) rf.Force <;>
            cases hMo : handler.MountDrive (im.GetDirectCSIPath U) (Join [im.MountRoot, U])
              rf.MountOptions <;>
            cases hS : handler.GetFreeCapacityFromStatfs (Join [im.MountRoot, U]) <;>
            simpa [Pass.prepend, updatePass, passMakeBlockFile, passFormat, passFormatDrive,
              passUnmount, passMount, passStatfs, passConditions, passFinalize, hMk, hNot, hDo,
              hMp, hUn hMp, hFo, hMo, hS] using hFormat
        obtain ⟨rfl, rfl, rfl⟩ := hArgs
        have hMo : handler.MountDrive (im.GetDirectCSIPath uuid) (Join [im.MountRoot, uuid])
            rf.MountOptions = some mountErr := by
          apply hMount
          by_cases hMp : drive.Status.Mountpoint = ""
          · cases hMo : handler.MountDrive (im.GetDirectCSIPath uuid) (Join [im.MountRoot, uuid])
              rf.MountOptions <;>
            cases hS : handler.GetFreeCapacityFromStatfs (Join [im.MountRoot, uuid]) <;>
            simp [Pass.prepend, updatePass, passMakeBlockFile, passFormat, passFormatDrive,
              passUnmount, passMount, passStatfs, passConditions, passFinalize, hMk, hDo,
              hMp, hFormatOk, hMo, hS]
          · cases hMo : handler.MountDrive (im.GetDirectCSIPath uuid) (Join [im.MountRoot, uuid])
              rf.MountOptions <;>
            cases hS : handler.GetFreeCapacityFromStatfs (Join [im.MountRoot, uuid]) <;>
            simp [Pass.prepend, updatePass, passMakeBlockFile, passFormat, passFormatDrive,
              passUnmount, passMount, passStatfs, passConditions, passFinalize, hMk, hDo,
              hMp, hUn hMp, hFormatOk, hMo, hS]
        by_cases hMp : drive.Status.Mountpoint = ""
        · simp [Pass.prepend, updatePass, passMakeBlockFile, passFormat, passFormatDrive,
            passUnmount, passMount, passStatfs, passConditions, passFinalize, hMk, hDo,
            hMp, hFormatOk, hMo, BoolToCondition, UpdateCondition, hStatus, hReq]
        · simp [Pass.prepend, updatePass, passMakeBlockFile, passFormat, passFormatDrive,
            passUnmount, passMount, passStatfs, passConditions, passFinalize, hMk, hDo,
            hMp, hUn hMp, hFormatOk, hMo, BoolToCondition, UpdateCondition, hStatus, hReq]
      · exfalso
        obtain ⟨hFs, hForce⟩ := not_or.mp hDo
        by_cases hMp : drive.Status.Mountpoint = "" <;>
        cases hMo : handler.MountDrive (im.GetDirectCSIPath U) (Join [im.MountRoot, U])
          rf.MountOptions <;>
        cases hS : handler.GetFreeCapacityFromStatfs (Join [im.MountRoot, U]) <;>
        simp [Pass.prepend, updatePass, passMakeBlockFile, passFormat, passFormatDrive,
          passUnmount, passMount, passStatfs, passConditions, passFinalize, hMk, hNot, hFs,
          hForce, hMp, hMo, hS] at hFormat

/-- C3 at the drive `d1` with a mounter that reports `device busy`. -/
theorem update_mount_failure_witness :
    (update sampleImports (mountFailingHandler []) (sampleDrive "d1" DriveStatus.Available)).err =
      some "failed to mount drive: d1 device busy" ∧
    (update sampleImports (mountFailingHandler [])
      (sampleDrive "d1" DriveStatus.Available)).drive.Status.DriveStatus = DriveStatus.Available :=
  have h := update_mount_failure sampleImports (mountFailingHandler [])
    (sampleDrive "d1" DriveStatus.Available) { Force := false, MountOptions := ["noatime"] }
    "01020304-0506-4708-890a-0b0c0d0e0f10" "/dev/01020304-0506-4708-890a-0b0c0d0e0f10" false
    "device busy" rfl rfl rfl (by decide) rfl (fun _ _ _ _ => rfl) (fun _ _ => rfl)
  ⟨h.2.2.2.2.2.2.1, h.2.2.2.2.1⟩

/-- C4: for a drive whose only finalizer is the data-protection finalizer, when
every call made succeeds, `delete` returns no error and makes, in this order,
the write of the Terminating status (skipped when the status is Terminating on
entry), the unmount of `MountRoot/<name>`, and the write of the object with
status Terminating and no finalizers, which is the last object persisted.
Redelivering the event on the object as it stands after the Terminating write
(with any collaborators that succeed again) makes the unmount and the final
write only and ends with the same object and no error. -/
theorem delete_two_phase (im im2 : Imports) (handler handler2 : DriveEventHandler)
    (drive : DirectCSIDrive)
    (hFin : drive.Finalizers = [im.DirectCSIDriveFinalizerDataProtection])
    (hAll : ∀ c ∈ (delete im handler drive).calls, c.succeeds im handler = true)
    (hRoot : im2.MountRoot = im.MountRoot)
    (hProt : im2.DirectCSIDriveFinalizerDataProtection = im.DirectCSIDriveFinalizerDataProtection)
    (hAll2 : ∀ c ∈ (delete im2 handler2 drive.terminating).calls, c.succeeds im2 handler2 = true) :
    delete im handler drive =
      { err := none
        drive := { drive.terminating with Finalizers := [] }
        calls :=
          (if drive.Status.DriveStatus = DriveStatus.Terminating then []
           else [Call.DirectCSIDrivesUpdate drive.terminating]) ++
          [Call.SafeUnmount (Join [im.MountRoot, drive.Name]),
           Call.DirectCSIDrivesUpdate { drive.terminating with Finalizers := [] }] } ∧
    delete im2 handler2 drive.terminating =
      { err := none
        drive := { drive.terminating with Finalizers := [] }
        calls :=
          [Call.SafeUnmount (Join [im.MountRoot, drive.Name]),
           Call.DirectCSIDrivesUpdate { drive.terminating with Finalizers := [] }] } := by
  constructor
  · by_cases hT : drive.Status.DriveStatus = DriveStatus.Terminating
    · have hd := terminating_of_terminating drive hT
      rw [hd, delete_of_terminating im handler drive hT hFin hAll]
      simp [hT]
    · cases hU1 : handler.updateDrive drive.terminating <;>
      cases hS : im.SafeUnmount (Join [im.MountRoot, drive.Name]) <;>
      cases hU : handler.updateDrive { drive.terminating with Finalizers := [] } <;>
      simp [delete, deleteFinalizers, DirectCSIDrive.terminating, hT, hFin, hS, hU, hU1, Call.succeeds, Except.isOk,
        Except.toBool] at hAll hU1 hU ⊢ <;> simp_all
  · have h := delete_of_terminating im2 handler2 drive.terminating rfl
      (by rw [hProt]; exact hFin) hAll2
    rw [h, hRoot]
    rfl

/-- C4 at a Ready drive `d1` protected by the data-protection finalizer. -/
theorem delete_two_phase_witness :
    (delete sampleImports (sampleHandler [])
      (finalizedDrive "d1" DriveStatus.Ready ["data-protection"])).calls =
      [Call.DirectCSIDrivesUpdate (finalizedDrive "d1" DriveStatus.Terminating ["data-protection"]),
       Call.SafeUnmount "/mnt/d1",
       Call.DirectCSIDrivesUpdate (finalizedDrive "d1" DriveStatus.Terminating [])] ∧
    delete sampleImports (sampleHandler [])
      (finalizedDrive "d1" DriveStatus.Terminating ["data-protection"]) =
      { err := none
        drive := finalizedDrive "d1" DriveStatus.Terminating []
        calls := [Call.SafeUnmount "/mnt/d1",
          Call.DirectCSIDrivesUpdate (finalizedDrive "d1" DriveStatus.Terminating [])] } :=
  have h := delete_two_phase sampleImports sampleImports (sampleHandler []) (sampleHandler [])
    (finalizedDrive "d1" DriveStatus.Ready ["data-protection"]) rfl (by decide) rfl rfl (by decide)
  ⟨congrArg Result.calls h.1, h.2⟩

/-- C5, as amended: when the drive has more than one finalizer, or exactly one
that is not the data-protection finalizer, `delete` returns an error, makes no
unmount call, leaves the finalizers of the object unchanged and persists no
object with other finalizers. When the drive is Terminating on entry or the
write of the Terminating status succeeds, the error is `cannot delete drive in
use` for more than one finalizer and the `invalid state reached` error
otherwise; when that write fails, the error is the one of the repository. -/
theorem delete_blocked (im : Imports) (handler : DriveEventHandler) (drive : DirectCSIDrive)
    (hFin : 1 < drive.Finalizers.length ∨
      ∃ finalizer, drive.Finalizers = [finalizer] ∧
        finalizer ≠ im.DirectCSIDriveFinalizerDataProtection) :
    (delete im handler drive).err ≠ none ∧
    (∀ c ∈ (delete im handler drive).calls, c.isUnmount = false) ∧
    (delete im handler drive).drive.Finalizers = drive.Finalizers ∧
    (∀ d, Call.DirectCSIDrivesUpdate d ∈ (delete im handler drive).calls →
      d.Finalizers = drive.Finalizers) ∧
    ((drive.Status.DriveStatus = DriveStatus.Terminating ∨
        (handler.updateDrive drive.terminating).isOk = true) →
      (delete im handler drive).err =
        some (if 1 < drive.Finalizers.length then "cannot delete drive in use"
          else "invalid state reached. Report this issue at https://github.com/minio/direct-csi/issues")) ∧
    (drive.Status.DriveStatus ≠ DriveStatus.Terminating →
      ∀ e, handler.updateDrive drive.terminating = Except.error e →
        (delete im handler drive).err = some e) := by
  have hBlocked := deleteFinalizers_blocked im handler drive [] hFin
  have hBlockedT := deleteFinalizers_blocked im handler drive.terminating
    [Call.DirectCSIDrivesUpdate drive.terminating] hFin
  have hFinT : drive.terminating.Finalizers = drive.Finalizers := rfl
  by_cases hT : drive.Status.DriveStatus = DriveStatus.Terminating
  · simp [delete, hT, hBlocked]
  · cases hU : handler.updateDrive drive.terminating <;>
      simp [delete, hT, hU, hBlockedT, hFinT, Call.isUnmount, Except.isOk, Except.toBool]

/-- C5 fails as stated: the Ready drive `d1` carries the data-protection
finalizer and the finalizer of a second party, and the write of the Terminating
status fails with `conflict`; `delete` returns `conflict`, not `cannot delete
drive in use`. -/
theorem delete_blocked_counterexample :
    1 < (finalizedDrive "d1" DriveStatus.Ready ["data-protection", "other"]).Finalizers.length ∧
    (delete sampleImports conflictHandler
      (finalizedDrive "d1" DriveStatus.Ready ["data-protection", "other"])).err =
      some "conflict" ∧
    (delete sampleImports conflictHandler
      (finalizedDrive "d1" DriveStatus.Ready ["data-protection", "other"])).err ≠
      some "cannot delete drive in use" := by
  decide

/-- C5 as amended, at a drive that also carries the finalizer of a second
party: the named error when the write of the Terminating status succeeds, the
error of the repository when it fails. -/
theorem delete_blocked_witness :
    (delete sampleImports (sampleHandler [])
      (finalizedDrive "d1" DriveStatus.Ready ["data-protection", "other"])).err =
      some "cannot delete drive in use" ∧
    (delete sampleImports conflictHandler
      (finalizedDrive "d1" DriveStatus.Ready ["data-protection", "other"])).err =
      some "conflict" :=
  ⟨(delete_blocked sampleImports (sampleHandler [])
      (finalizedDrive "d1" DriveStatus.Ready ["data-protection", "other"])
      (Or.inl (by decide))).2.2.2.2.1 (Or.inr rfl),
    (delete_blocked sampleImports conflictHandler
      (finalizedDrive "d1" DriveStatus.Ready ["data-protection", "other"])
      (Or.inl (by decide))).2.2.2.2.2 (by decide) "conflict" rfl⟩

/-- C6: for a drive without finalizers, provided the write of the Terminating
status (made only when the status is not Terminating on entry) succeeds,
`delete` returns no error and its only call is that write: no unmount and no
other repository update. -/
theorem delete_without_finalizers (im : Imports) (handler : DriveEventHandler)
    (drive : DirectCSIDrive)
    (hFin : drive.Finalizers = [])
    (hWrite : drive.Status.DriveStatus ≠ DriveStatus.Terminating →
      (handler.updateDrive drive.terminating).isOk = true) :
    delete im handler drive =
      { err := none
        drive := drive.terminating
        calls :=
          if drive.Status.DriveStatus = DriveStatus.Terminating then []
          else [Call.DirectCSIDrivesUpdate drive.terminating] } := by
  have hFinT : drive.terminating.Finalizers = [] := hFin
  by_cases hT : drive.Status.DriveStatus = DriveStatus.Terminating
  · simp [delete, deleteFinalizers, hT, hFin, terminating_of_terminating drive hT]
  · obtain ⟨d, hU⟩ := (isOk_iff _).mp (hWrite hT)
    simp [delete, deleteFinalizers, hT, hFinT, hU]

/-- C6 at a Ready drive without finalizers. -/
theorem delete_without_finalizers_witness :
    delete sampleImports (sampleHandler []) (sampleDrive "d1" DriveStatus.Ready) =
      { err := none
        drive := sampleDrive "d1" DriveStatus.Terminating
        calls := [Call.DirectCSIDrivesUpdate (sampleDrive "d1" DriveStatus.Terminating)] } :=
  delete_without_finalizers sampleImports (sampleHandler []) (sampleDrive "d1" DriveStatus.Ready)
    rfl (fun _ => rfl)

/-- C7: starting from any repository content, after any sequence of
reconciliations run one after another by handlers of one node, where each
handler lists the current content and every identifier the generator would
return is held by no drive at that time, any two drives of that node with
different names that were made Ready by a successful format reconciliation hold
different identifiers. -/
theorem uuid_unique_after_reconciliations (node : String) (repo : List DirectCSIDrive)
    (rs : List Reconciliation)
    (hNode : ∀ r ∈ rs, r.handler.nodeID = node)
    (hFresh : freshAlong repo rs = true) :
    ∀ x ∈ (reconcileAll (repo, []) rs).1, ∀ y ∈ (reconcileAll (repo, []) rs).1,
      x.Name ∈ (reconcileAll (repo, []) rs).2 → y.Name ∈ (reconcileAll (repo, []) rs).2 →
      x.Name ≠ y.Name → x.Status.NodeName = node → y.Status.NodeName = node →
      x.Status.FilesystemUUID ≠ y.Status.FilesystemUUID := by
  intro x hx y hy hxReady _ hNe hxNode hyNode hEq
  have hInv : UniqueOnNode node repo [] := by
    intro x _ y _ h
    simp at h
  exact reconcileAll_unique node rs repo [] hNode hFresh hInv x hx y hy hxReady hxNode hyNode
    (fun h => hNe h.symm) hEq.symm

/-- C7 at two drives of node `n1` that both start with the identifier `u1`. -/
theorem uuid_unique_after_reconciliations_witness :
    (reconcileAll ([identifiedDrive "d1", identifiedDrive "d2"], []) sampleReconciliations).2 =
      ["d2", "d1"] ∧
    (reconcileAll ([identifiedDrive "d1", identifiedDrive "d2"], []) sampleReconciliations).1.map
      (fun d => d.Status.FilesystemUUID) = ["01020304-0506-4708-890a-0b0c0d0e0f10", "u1"] ∧
    ∀ x ∈ (reconcileAll ([identifiedDrive "d1", identifiedDrive "d2"], []) sampleReconciliations).1,
      ∀ y ∈ (reconcileAll ([identifiedDrive "d1", identifiedDrive "d2"], [])
          sampleReconciliations).1,
      x.Name ∈ (reconcileAll ([identifiedDrive "d1", identifiedDrive "d2"], [])
        sampleReconciliations).2 →
      y.Name ∈ (reconcileAll ([identifiedDrive "d1", identifiedDrive "d2"], [])
        sampleReconciliations).2 →
      x.Name ≠ y.Name → x.Status.NodeName = "n1" → y.Status.NodeName = "n1" →
      x.Status.FilesystemUUID ≠ y.Status.FilesystemUUID :=
  ⟨by decide, by decide,
    uuid_unique_after_reconciliations "n1" [identifiedDrive "d1", identifiedDrive "d2"]
      sampleReconciliations (by decide) (by decide)⟩

/-- C8 at a handler without node identity that reconciles `d1` of node `n1`
while `d2` of the same node carries the same identifier `u1`: the list
succeeds and holds the duplicate, yet no fresh identifier is generated, and
`d1` is handed to the repository as Ready with the identifier `u1`. -/
theorem uuid_duplicate_missed :
    anyNodeHandler.nodeID = "" ∧
    (identifiedDrive "d1").Status.FilesystemUUID ≠ "" ∧
    anyNodeHandler.listDrives = Except.ok [identifiedDrive "d1", identifiedDrive "d2"] ∧
    (∃ other ∈ [identifiedDrive "d1", identifiedDrive "d2"],
      other.Name ≠ (identifiedDrive "d1").Name ∧
      other.Status.NodeName = (identifiedDrive "d1").Status.NodeName ∧
      other.Status.FilesystemUUID = (identifiedDrive "d1").Status.FilesystemUUID) ∧
    getFileSystemUUID sampleImports anyNodeHandler (identifiedDrive "d1") =
      (Except.ok "u1", [Call.DirectCSIDrivesList]) ∧
    Call.uuidNew ∉ (update sampleImports anyNodeHandler (identifiedDrive "d1")).calls ∧
    (update sampleImports anyNodeHandler (identifiedDrive "d1")).err = none ∧
    Call.DirectCSIDrivesUpdate (update sampleImports anyNodeHandler (identifiedDrive "d1")).drive ∈
      (update sampleImports anyNodeHandler (identifiedDrive "d1")).calls ∧
    (update sampleImports anyNodeHandler (identifiedDrive "d1")).drive.Status.FilesystemUUID =
      "u1" ∧
    (update sampleImports anyNodeHandler (identifiedDrive "d1")).drive.Status.DriveStatus =
      DriveStatus.Ready := by
  refine ⟨rfl, by decide, rfl, ⟨identifiedDrive "d2", by decide, by decide, rfl, rfl⟩, rfl,
    by decide, by decide, by decide, by decide, by decide⟩

/-- C9: whenever `update` promotes an Available drive to Ready (whatever the
initial state, the force flag and the outcomes of the collaborators), the
object handed to the repository, which is the last call made, has a non-empty
filesystem, a non-empty mountpoint and the data-protection finalizer; the
filesystem type constant `FSTypeXFS` is taken to be non-empty. -/
theorem ready_is_formatted_mounted_protected (im : Imports) (handler : DriveEventHandler)
    (drive : DirectCSIDrive)
    (hXFS : im.FSTypeXFS ≠ "")
    (hAvailable : drive.Status.DriveStatus = DriveStatus.Available)
    (hReady : (update im handler drive).drive.Status.DriveStatus = DriveStatus.Ready) :
    (update im handler drive).calls.getLast? =
      some (Call.DirectCSIDrivesUpdate (update im handler drive).drive) ∧
    (update im handler drive).drive.Status.Filesystem ≠ "" ∧
    (update im handler drive).drive.Status.Mountpoint ≠ "" ∧
    im.DirectCSIDriveFinalizerDataProtection ∈ (update im handler drive).drive.Finalizers := by
  cases hType : driveUpdateType drive with
  | DriveUpdateTypeUnknown =>
    simp [update, hType, hAvailable] at hReady
  | DriveUpdateTypeOwnAndFormat =>
    have hGate : drive.Spec.DirectCSIOwned = true ∧ drive.Spec.RequestedFormat ≠ none := by
      simpa [driveUpdateType, ownAndFormat] using hType
    obtain ⟨rf, hrf⟩ := Option.ne_none_iff_exists'.mp hGate.2
    rw [update_available_eq im handler drive rf hAvailable hGate.1 hrf] at hReady ⊢
    rcases hG : getFileSystemUUID im handler drive with ⟨res, cs⟩
    rw [hG] at hReady
    cases res with
    | error e => simp [hAvailable] at hReady
    | ok UUID =>
      have hU := getFileSystemUUID_ne_empty im handler drive UUID cs hG
      obtain ⟨-, -, -, -, hOk, hErr⟩ := updatePass_spec im handler drive rf UUID hU
      simp only [passPersist_drive, passPersist_calls, Pass.prepend] at hReady ⊢
      cases hE : (updatePass im handler drive rf UUID []).updateErr with
      | some e =>
        rw [(hErr (by simp [hE])).1, hAvailable] at hReady
        cases hReady
      | none =>
        obtain ⟨-, hFin, -, hFs, hMp⟩ := hOk hE
        exact ⟨by simp, hFs hXFS, hMp, by simp [hFin]⟩

/-- C9 at the drive `d1` of the spec's scenario. -/
theorem ready_is_formatted_mounted_protected_witness :
    (update sampleImports (sampleHandler [])
      (sampleDrive "d1" DriveStatus.Available)).drive.Status.Filesystem ≠ "" ∧
    (update sampleImports (sampleHandler [])
      (sampleDrive "d1" DriveStatus.Available)).drive.Status.Mountpoint ≠ "" ∧
    "data-protection" ∈ (update sampleImports (sampleHandler [])
      (sampleDrive "d1" DriveStatus.Available)).drive.Finalizers :=
  (ready_is_formatted_mounted_protected sampleImports (sampleHandler [])
    (sampleDrive "d1" DriveStatus.Available) (by decide) rfl (by decide)).2

/-- C10: if handling an Add, Update or Delete event hands the repository an
object without finalizers although the drive had some on entry, then the event
is Delete, the object written has status Terminating, and either the drive was
Terminating on entry or the first call of the same run was the successful write
of the Terminating status, made before the write that clears the finalizers.
In particular `update` never empties the finalizers. -/
theorem finalizers_cleared_only_when_terminating (im : Imports) (handler : DriveEventHandler)
    (event : EventType) (drive d : DirectCSIDrive)
    (hWrite : Call.DirectCSIDrivesUpdate d ∈ (Handle im handler event drive).calls)
    (hHad : drive.Finalizers ≠ [])
    (hCleared : d.Finalizers = []) :
    event = EventType.DeleteEvent ∧
    d.Status.DriveStatus = DriveStatus.Terminating ∧
    (drive.Status.DriveStatus = DriveStatus.Terminating ∨
      ∃ rest, (Handle im handler event drive).calls =
          Call.DirectCSIDrivesUpdate drive.terminating :: rest ∧
        (handler.updateDrive drive.terminating).isOk = true ∧
        Call.DirectCSIDrivesUpdate d ∈ rest) := by
  have hUpdate : ¬ Call.DirectCSIDrivesUpdate d ∈ (update im handler drive).calls := by
    intro h
    obtain ⟨rf, UUID, cs, -, hG, hd, -⟩ := update_writes im handler drive d h
    have hU := getFileSystemUUID_ne_empty im handler drive UUID cs hG
    obtain ⟨-, -, -, -, hOk, hErr⟩ := updatePass_spec im handler drive rf UUID hU
    cases hE : (updatePass im handler drive rf UUID []).updateErr with
    | none =>
      have := (hOk hE).2.1
      rw [← hd, hCleared] at this
      cases this
    | some e =>
      have := (hErr (by simp [hE])).2.1
      rw [← hd, hCleared] at this
      exact hHad this.symm
  cases event with
  | AddEvent => exact absurd hWrite hUpdate
  | UpdateEvent => exact absurd hWrite hUpdate
  | DeleteEvent =>
    refine ⟨rfl, ?_⟩
    simp only [Handle] at hWrite ⊢
    by_cases hT : drive.Status.DriveStatus = DriveStatus.Terminating
    · simp only [delete, hT, ne_eq, not_true_eq_false, if_false] at hWrite
      obtain ⟨rest, hCalls, hRest⟩ := deleteFinalizers_calls im handler drive []
      rw [hCalls] at hWrite
      have hd := hRest d (by simpa using hWrite)
      exact ⟨by rw [hd]; exact hT, Or.inl hT⟩
    · simp only [delete, hT, ne_eq, not_false_eq_true, if_true] at hWrite ⊢
      cases hU : handler.updateDrive drive.terminating with
      | error e =>
        simp only [hU, List.mem_singleton, Call.DirectCSIDrivesUpdate.injEq] at hWrite
        rw [hWrite] at hCleared
        exact absurd hCleared hHad
      | ok d0 =>
        simp only [hU] at hWrite ⊢
        obtain ⟨rest, hCalls, hRest⟩ := deleteFinalizers_calls im handler drive.terminating
          [Call.DirectCSIDrivesUpdate drive.terminating]
        rw [hCalls] at hWrite ⊢
        simp only [List.singleton_append, List.mem_cons, Call.DirectCSIDrivesUpdate.injEq]
          at hWrite
        rcases hWrite with hEq | hIn
        · rw [hEq] at hCleared
          exact absurd hCleared hHad
        · have hd := hRest d hIn
          exact ⟨by rw [hd]; rfl, Or.inr ⟨rest, rfl, rfl, hIn⟩⟩

/-- C10 at the deletion of a Ready drive protected by the data-protection
finalizer. -/
theorem finalizers_cleared_only_when_terminating_witness :
    (finalizedDrive "d1" DriveStatus.Terminating []).Status.DriveStatus = DriveStatus.Terminating ∧
    (Handle sampleImports (sampleHandler []) EventType.DeleteEvent
      (finalizedDrive "d1" DriveStatus.Ready ["data-protection"])).calls.head? =
      some (Call.DirectCSIDrivesUpdate (finalizedDrive "d1" DriveStatus.Terminating ["data-protection"])) :=
  have h := finalizers_cleared_only_when_terminating sampleImports (sampleHandler [])
    EventType.DeleteEvent (finalizedDrive "d1" DriveStatus.Ready ["data-protection"])
    (finalizedDrive "d1" DriveStatus.Terminating []) (by decide) (by decide) rfl
  ⟨h.2.1, by decide⟩

/-- C11: when an Add or Update event was handled without error, handling an
Add or Update event on the resulting object (with any collaborators) makes no
call at all, so no format, no mount and no repository update, and leaves the
object as the first reconciliation left it, finalizers included. When the first
reconciliation took the format path (the drive was Available), the object it
left is the one it persisted with its last call, and its finalizers are the
data-protection finalizer, exactly once. -/
theorem update_idempotent (im im2 : Imports) (handler handler2 : DriveEventHandler)
    (drive : DirectCSIDrive) (event event2 : EventType)
    (hEvent : event = EventType.AddEvent ∨ event = EventType.UpdateEvent)
    (hEvent2 : event2 = EventType.AddEvent ∨ event2 = EventType.UpdateEvent)
    (hOk : (Handle im handler event drive).err = none) :
    (Handle im2 handler2 event2 (Handle im handler event drive).drive).calls = [] ∧
    (Handle im2 handler2 event2 (Handle im handler event drive).drive).drive =
      (Handle im handler event drive).drive ∧
    (drive.Status.DriveStatus = DriveStatus.Available →
      (Handle im handler event drive).calls.getLast? =
        some (Call.DirectCSIDrivesUpdate (Handle im handler event drive).drive) ∧
      (Handle im2 handler2 event2 (Handle im handler event drive).drive).drive.Finalizers =
        [im.DirectCSIDriveFinalizerDataProtection] ∧
      (Handle im2 handler2 event2 (Handle im handler event drive).drive).drive.Finalizers.count
        im.DirectCSIDriveFinalizerDataProtection = 1) := by
  have h1 : Handle im handler event drive = update im handler drive := by
    rcases hEvent with h | h <;> simp [Handle, h]
  have h2 : ∀ d, Handle im2 handler2 event2 d = update im2 handler2 d := by
    intro d
    rcases hEvent2 with h | h <;> simp [Handle, h]
  rw [h1] at hOk ⊢
  rw [h2]
  by_cases hReached : ∃ d, Call.DirectCSIDrivesUpdate d ∈ (update im handler drive).calls
  · obtain ⟨d, hd⟩ := hReached
    obtain ⟨rf, UUID, cs, dev, -, -, -, -, hRun, hEq, hDrive, hCalls, hErr⟩ :=
      update_reached im handler drive d hd
    have hDev : dev.updateErr = none := by
      rw [hErr] at hOk
      cases hU : handler.updateDrive d with
      | error e => simp [hU] at hOk
      | ok d2 => simpa [hU] using hOk
    obtain ⟨hFin, hReq, -⟩ := passFinalize_promoted im dev hDev
    have hSecond := update_of_closed_gate im2 handler2 (update im handler drive).drive
      (by rw [hDrive, hReq]; simp)
    rw [hSecond]
    refine ⟨rfl, rfl, fun _ => ⟨?_, ?_, ?_⟩⟩
    · rw [hCalls, hEq]
      simp
    · rw [hDrive, hFin]
    · rw [hDrive, hFin]
      simp
  · have hNo : ∀ d, Call.DirectCSIDrivesUpdate d ∉ (update im handler drive).calls :=
      fun d hd => hReached ⟨d, hd⟩
    obtain ⟨hA, hAny⟩ := update_ok_unreached im handler drive hOk hNo
    rw [hAny im handler, hAny im2 handler2]
    exact ⟨rfl, rfl, fun h => absurd h hA⟩

/-- C11 at the drive `d1` of the spec's scenario: a second Update event after
the successful Add makes no call and keeps the single finalizer. -/
theorem update_idempotent_witness :
    (Handle sampleImports (sampleHandler []) EventType.UpdateEvent
      (Handle sampleImports (sampleHandler []) EventType.AddEvent
        (sampleDrive "d1" DriveStatus.Available)).drive).calls = [] ∧
    (Handle sampleImports (sampleHandler []) EventType.UpdateEvent
      (Handle sampleImports (sampleHandler []) EventType.AddEvent
        (sampleDrive "d1" DriveStatus.Available)).drive).drive.Finalizers = ["data-protection"] :=
  have h := update_idempotent sampleImports sampleImports (sampleHandler []) (sampleHandler [])
    (sampleDrive "d1" DriveStatus.Available) EventType.AddEvent EventType.UpdateEvent
    (Or.inl rfl) (Or.inr rfl) (by decide)
  ⟨h.1, (h.2.2 rfl).2.1⟩

/-- C12: for a drive that is not both owned by the controller and carrying a
format request, whatever its status, an Add or Update event returns the error
`Unknown update type`, leaves the object unchanged and calls no collaborator
(no device operation, no repository update). -/
theorem update_unknown_type (im : Imports) (handler : DriveEventHandler)
    (drive : DirectCSIDrive) (event : EventType)
    (hEvent : event = EventType.AddEvent ∨ event = EventType.UpdateEvent)
    (hGate : ¬(drive.Spec.DirectCSIOwned = true ∧ drive.Spec.RequestedFormat ≠ none)) :
    Handle im handler event drive =
      { err := some "Unknown update type", drive := drive, calls := [] } := by
  rcases hEvent with h | h <;> simp [Handle, h, update_of_closed_gate im handler drive hGate]

/-- C12 at an Available drive with a pending request that the controller does
not own, Add event. -/
theorem update_unknown_type_witness :
    Handle sampleImports (sampleHandler []) EventType.AddEvent
        (unownedDrive "d1" DriveStatus.Available) =
      { err := some "Unknown update type", drive := unownedDrive "d1" DriveStatus.Available,
        calls := [] } :=
  update_unknown_type sampleImports (sampleHandler []) (unownedDrive "d1" DriveStatus.Available)
    EventType.AddEvent (Or.inl rfl) (by decide)

/-- C13: when the repository update is reached, `update` returns the
repository's error if that update fails; if it succeeds, `update` returns the
error recorded for the first device operation of the trace that failed
(block-node creation, unmount, format, mount or statfs; wrapped with the drive
name for unmount, format and mount), and `update` returns no error exactly
when every call of the pass succeeded. -/
theorem update_result (im : Imports) (handler : DriveEventHandler) (drive d : DirectCSIDrive)
    (hReached : Call.DirectCSIDrivesUpdate d ∈ (update im handler drive).calls) :
    (∀ e, handler.updateDrive d = Except.error e → (update im handler drive).err = some e) ∧
    ((handler.updateDrive d).isOk = true →
      (update im handler drive).err =
        (update im handler drive).calls.findSome? (Call.failure handler drive.Name)) ∧
    ((update im handler drive).err = none ↔
      ∀ c ∈ (update im handler drive).calls, c.succeeds im handler = true) := by
  obtain ⟨rf, UUID, cs, dev, -, -, -, hG, hRun, -, -, hCalls, hErr⟩ :=
    update_reached im handler drive d hReached
  have hcs := resolution_calls_succeed im handler drive UUID cs hG
  have hFail := deviceRun_failure im handler drive rf UUID dev hRun
  have hSucc := deviceRun_succeeds im handler drive rf UUID dev hRun
  have hRes := resolution_calls_failure handler drive.Name cs
    (getFileSystemUUID_calls im handler drive |> fun h => by rw [hG] at h; exact h)
  rw [hCalls, hErr]
  refine ⟨?_, ?_, ?_⟩
  · intro e he
    simp [he]
  · intro hOk
    obtain ⟨d', hd'⟩ := (isOk_iff _).mp hOk
    simp [hd', List.findSome?_append, hRes, hFail, Call.failure]
  · cases hU : handler.updateDrive d with
    | error e =>
      simp only [false_iff, reduceCtorEq]
      intro hAll
      have := hAll (Call.DirectCSIDrivesUpdate d) (by simp)
      simp [Call.succeeds, hU, Except.isOk, Except.toBool] at this
    | ok d' =>
      simp only [hSucc]
      constructor
      · intro hAll c hc
        simp only [List.mem_append, List.mem_singleton] at hc
        rcases hc with (hc | hc) | rfl
        · exact hcs c hc
        · exact hAll c hc
        · simp [Call.succeeds, hU, Except.isOk, Except.toBool]
      · intro hAll c hc
        exact hAll c (by simp [hc])

/-- C13 at the drive `d1` with a mounter that reports `device busy`: the
repository update succeeds and the error returned is the mount error, the
first failure of the trace. -/
theorem update_result_witness :
    (update sampleImports (mountFailingHandler []) (sampleDrive "d1" DriveStatus.Available)).err =
      (update sampleImports (mountFailingHandler [])
        (sampleDrive "d1" DriveStatus.Available)).calls.findSome?
        (Call.failure (mountFailingHandler []) "d1") ∧
    (update sampleImports (mountFailingHandler []) (sampleDrive "d1" DriveStatus.Available)).err =
      some "failed to mount drive: d1 device busy" :=
  ⟨(update_result sampleImports (mountFailingHandler []) (sampleDrive "d1" DriveStatus.Available)
    (update sampleImports (mountFailingHandler []) (sampleDrive "d1" DriveStatus.Available)).drive
    (by decide)).2.1 rfl, by decide⟩

/-- C14, as amended: for an Available drive that passes the entry gate, when the
identifier is resolved (it is empty on entry, or the list of the drives
succeeds), whichever device operation fails, the pass computes the three
conditions and hands the object to the repository through exactly one update,
its last call; when the list that the resolution needs fails, `update` returns
that error at once, with the object unchanged and the list as its only call. -/
theorem update_persists_once (im : Imports) (handler : DriveEventHandler)
    (drive : DirectCSIDrive) (rf : RequestedFormatInfo)
    (hStatus : drive.Status.DriveStatus = DriveStatus.Available)
    (hOwned : drive.Spec.DirectCSIOwned = true)
    (hReq : drive.Spec.RequestedFormat = some rf) :
    (drive.Status.FilesystemUUID = "" ∨ handler.listDrives.isOk = true →
      (update im handler drive).calls.filter Call.isUpdate =
        [Call.DirectCSIDrivesUpdate (update im handler drive).drive] ∧
      (update im handler drive).calls.getLast? =
        some (Call.DirectCSIDrivesUpdate (update im handler drive).drive) ∧
      ∃ formatted mounted updateErr,
        (update im handler drive).drive.Status.Conditions =
          conditionsOf im formatted mounted updateErr) ∧
    (∀ e, drive.Status.FilesystemUUID ≠ "" → handler.listDrives = Except.error e →
      update im handler drive =
        { err := some e, drive := drive, calls := [Call.DirectCSIDrivesList] }) := by
  constructor
  · intro hRes
    have hOk : ∃ UUID cs, getFileSystemUUID im handler drive = (Except.ok UUID, cs) := by
      unfold getFileSystemUUID isDuplicateUUID
      simp only
      split
      · exact ⟨_, _, rfl⟩
      · rename_i hU
        rcases hRes with h | h
        · exact absurd h hU
        · obtain ⟨drives, hL⟩ := (isOk_iff _).mp h
          simp only [hL]
          split <;> exact ⟨_, _, rfl⟩
    obtain ⟨UUID, cs, hG⟩ := hOk
    obtain ⟨dev, hRun, hDrive, hCalls, -⟩ :=
      update_available_run im handler drive rf UUID cs hStatus hOwned hReq hG
    have hcs : cs.filter Call.isUpdate = [] := by
      rw [List.filter_eq_nil_iff]
      intro c hc
      have h := getFileSystemUUID_calls im handler drive
      rw [hG] at h
      rcases h c hc with rfl | rfl <;> simp [Call.isUpdate]
    have hdev : dev.calls.filter Call.isUpdate = [] := by
      rw [List.filter_eq_nil_iff]
      intro c hc
      simp [(deviceRun_deviceOps im handler drive rf UUID dev hRun c hc).2]
    refine ⟨?_, ?_, dev.formatted, dev.mounted, dev.updateErr, ?_⟩
    · rw [hCalls, List.filter_append, List.filter_append, hcs, hdev]
      simp [Call.isUpdate]
    · rw [hCalls]
      simp
    · rw [hDrive, passFinalize_conditions]
  · intro e hU hL
    have hType := driveUpdateType_of_gate drive hOwned (by simp [hReq])
    simp [update, hType, hReq, hStatus, getFileSystemUUID, isDuplicateUUID, hU, hL]

/-- C14 fails as stated: the Available drive `d1` passes the entry gate and
carries an identifier, and the list of the drives fails; `update` returns the
list error, leaves the object as it was and makes no repository update. -/
theorem update_persists_once_counterexample :
    (identifiedDrive "d1").Status.DriveStatus = DriveStatus.Available ∧
    ownAndFormat (identifiedDrive "d1") = true ∧
    update sampleImports listFailingHandler (identifiedDrive "d1") =
      { err := some "list failed"
        drive := identifiedDrive "d1"
        calls := [Call.DirectCSIDrivesList] } ∧
    (update sampleImports listFailingHandler (identifiedDrive "d1")).calls.filter Call.isUpdate =
      [] := by
  decide

/-- C14 as amended, at the drive `d1` with a mounter that reports `device busy`:
one repository update, of the object the pass leaves. -/
theorem update_persists_once_witness :
    (update sampleImports (mountFailingHandler []) (sampleDrive "d1" DriveStatus.Available)).calls.filter
        Call.isUpdate =
      [Call.DirectCSIDrivesUpdate
        (update sampleImports (mountFailingHandler [])
          (sampleDrive "d1" DriveStatus.Available)).drive] :=
  ((update_persists_once sampleImports (mountFailingHandler [])
    (sampleDrive "d1" DriveStatus.Available) { Force := false, MountOptions := ["noatime"] }
    rfl rfl rfl).1 (Or.inl rfl)).1

/-- C15: in every pass, every device operation invoked before the last one
succeeded, so that no device operation follows one that failed; the device
operations invoked occur in the order block-node creation, unmount, format,
mount, statfs, each at most once; and when the drive is mounted on entry every
format call is preceded in the trace by an unmount that succeeded. -/
theorem update_short_circuits (im : Imports) (handler : DriveEventHandler)
    (drive : DirectCSIDrive) :
    (∀ c ∈ ((update im handler drive).calls.filter Call.isDeviceOp).dropLast,
      c.succeeds im handler = true) ∧
    ((update im handler drive).calls.filter Call.isDeviceOp).Pairwise
      (fun a b => a.rank < b.rank) ∧
    (drive.Status.Mountpoint ≠ "" → ∀ u s f,
      Call.FormatDrive u s f ∈ (update im handler drive).calls →
      ∃ pre post source,
        (update im handler drive).calls = pre ++ Call.UnmountDrive source :: post ∧
        handler.UnmountDrive source = none ∧
        Call.FormatDrive u s f ∈ post) := by
  rcases update_reached_or_not im handler drive with ⟨d, hd⟩ | ⟨hNone, -⟩
  · obtain ⟨rf, UUID, cs, dev, -, -, -, hG, hRun, -, -, hCalls, -⟩ :=
      update_reached im handler drive d hd
    rw [update_deviceOps im handler drive d rf UUID cs dev hG hRun hCalls]
    refine ⟨deviceRun_short_circuit im handler drive rf UUID dev hRun,
      deviceRun_ordered im handler drive rf UUID dev hRun, ?_⟩
    intro hMp u s f hFormat
    have hIn : Call.FormatDrive u s f ∈ dev.calls := by
      rw [hCalls] at hFormat
      simp only [List.mem_append, List.mem_singleton] at hFormat
      rcases hFormat with (h | h) | h
      · have hc := getFileSystemUUID_calls im handler drive
        rw [hG] at hc
        rcases hc _ h with h' | h' <;> cases h'
      · exact h
      · cases h
    obtain ⟨hUn, hSplit, hPost⟩ :=
      deviceRun_unmount_first im handler drive rf UUID dev hRun hMp u s f hIn
    refine ⟨cs ++ [callMakeBlockFile im drive UUID],
      dev.calls.drop 2 ++ [Call.DirectCSIDrivesUpdate d], im.GetDirectCSIPath UUID, ?_, ?_, ?_⟩
    · rw [hCalls]
      nth_rewrite 1 [hSplit]
      simp [callUnmount]
    · simpa [Call.succeeds, callUnmount] using hUn
    · simp [hPost]
  · rw [update_unreached_deviceOps im handler drive hNone]
    refine ⟨by simp, by simp, ?_⟩
    intro _ u s f hFormat
    cases hNone _ hFormat

/-- C15 at the drive `d1` mounted on entry and not formatted: the device
operations are in order, and the format call comes after a successful unmount. -/
theorem update_short_circuits_witness :
    ((update sampleImports (sampleHandler []) (mountedDrive "d1")).calls.filter
      Call.isDeviceOp).Pairwise (fun a b => a.rank < b.rank) ∧
    ∃ pre post source,
      (update sampleImports (sampleHandler []) (mountedDrive "d1")).calls =
        pre ++ Call.UnmountDrive source :: post ∧
      (sampleHandler []).UnmountDrive source = none ∧
      Call.FormatDrive "01020304-0506-4708-890a-0b0c0d0e0f10"
        "/dev/01020304-0506-4708-890a-0b0c0d0e0f10" false ∈ post :=
  have h := update_short_circuits sampleImports (sampleHandler []) (mountedDrive "d1")
  ⟨h.2.1, h.2.2 (by decide) "01020304-0506-4708-890a-0b0c0d0e0f10"
    "/dev/01020304-0506-4708-890a-0b0c0d0e0f10" false (by decide)⟩

/-- C16 at the drive `d1`: the format path mounts it at `MountRoot/<identifier>`
and records that path in Status.Mountpoint; `delete` on the resulting object,
whose only finalizer is the data-protection finalizer, unmounts
`MountRoot/<name>`, which is another path. -/
theorem delete_unmounts_by_name :
    (update sampleImports (sampleHandler [])
      (sampleDrive "d1" DriveStatus.Available)).drive.Status.Mountpoint =
      "/mnt/01020304-0506-4708-890a-0b0c0d0e0f10" ∧
    Call.MountDrive "/dev/01020304-0506-4708-890a-0b0c0d0e0f10"
        "/mnt/01020304-0506-4708-890a-0b0c0d0e0f10" ["noatime"] ∈
      (update sampleImports (sampleHandler []) (sampleDrive "d1" DriveStatus.Available)).calls ∧
    (update sampleImports (sampleHandler [])
      (sampleDrive "d1" DriveStatus.Available)).drive.Finalizers = ["data-protection"] ∧
    (delete sampleImports (sampleHandler [])
      (update sampleImports (sampleHandler [])
        (sampleDrive "d1" DriveStatus.Available)).drive).calls.filter Call.isUnmount =
      [Call.SafeUnmount "/mnt/d1"] ∧
    (delete sampleImports (sampleHandler [])
      (update sampleImports (sampleHandler [])
        (sampleDrive "d1" DriveStatus.Available)).drive).err = none := by
  decide

/-- C17: in the object handed to the repository by the format path, the Owned
condition is True exactly when Formatted and Mounted are both True, and False
otherwise; the Mounted and Formatted conditions carry the mounted/not-mounted
and formatted/not-formatted text that matches their status; the Owned message
is the text of the first error recorded in the pass, or the empty string when
no step failed. -/
theorem update_conditions (im : Imports) (handler : DriveEventHandler) (drive d : DirectCSIDrive)
    (hReached : Call.DirectCSIDrivesUpdate d ∈ (update im handler drive).calls) :
    (d.Status.Conditions.Owned.Status = ConditionStatus.True ↔
      d.Status.Conditions.Formatted.Status = ConditionStatus.True ∧
      d.Status.Conditions.Mounted.Status = ConditionStatus.True) ∧
    (d.Status.Conditions.Owned.Status = ConditionStatus.True ∨
      d.Status.Conditions.Owned.Status = ConditionStatus.False) ∧
    (d.Status.Conditions.Mounted =
        ⟨ConditionStatus.True, im.DirectCSIDriveReasonAdded, im.DirectCSIDriveMessageMounted⟩ ∨
      d.Status.Conditions.Mounted =
        ⟨ConditionStatus.False, im.DirectCSIDriveReasonAdded,
          im.DirectCSIDriveMessageNotMounted⟩) ∧
    (d.Status.Conditions.Formatted =
        ⟨ConditionStatus.True, im.DirectCSIDriveReasonAdded,
          im.DirectCSIDriveMessageFormatted⟩ ∨
      d.Status.Conditions.Formatted =
        ⟨ConditionStatus.False, im.DirectCSIDriveReasonAdded,
          im.DirectCSIDriveMessageNotFormatted⟩) ∧
    d.Status.Conditions.Owned.Message =
      ((update im handler drive).calls.findSome? (Call.failure handler drive.Name)).getD "" := by
  obtain ⟨rf, UUID, cs, dev, -, -, -, hG, hRun, hd, hDrive, hCalls, -⟩ :=
    update_reached im handler drive d hReached
  have hFail := deviceRun_failure im handler drive rf UUID dev hRun
  have hRes := resolution_calls_failure handler drive.Name cs
    (getFileSystemUUID_calls im handler drive |> fun h => by rw [hG] at h; exact h)
  have hTrace : (update im handler drive).calls.findSome? (Call.failure handler drive.Name) =
      dev.updateErr := by
    rw [hCalls, hFail]
    simp [List.findSome?_append, hRes, Call.failure]
  rw [hTrace, hd, hDrive, passFinalize_conditions]
  cases dev.formatted <;> cases dev.mounted <;> simp [conditionsOf, BoolToCondition]

/-- C17 at the drive `d1` with a mounter that reports `device busy`: the Owned
message is the mount error, and Owned is not True. -/
theorem update_conditions_witness :
    (update sampleImports (mountFailingHandler [])
      (sampleDrive "d1" DriveStatus.Available)).drive.Status.Conditions.Owned.Message =
      ((update sampleImports (mountFailingHandler [])
        (sampleDrive "d1" DriveStatus.Available)).calls.findSome?
        (Call.failure (mountFailingHandler []) "d1")).getD "" ∧
    (update sampleImports (mountFailingHandler [])
      (sampleDrive "d1" DriveStatus.Available)).drive.Status.Conditions.Owned =
      ⟨ConditionStatus.False, "Added", "failed to mount drive: d1 device busy"⟩ :=
  ⟨(update_conditions sampleImports (mountFailingHandler [])
    (sampleDrive "d1" DriveStatus.Available)
    (update sampleImports (mountFailingHandler []) (sampleDrive "d1" DriveStatus.Available)).drive
    (by decide)).2.2.2.2, by decide⟩

/-- C18: in a pass that reaches the repository update, when a mount and a
statfs were invoked and both succeeded, the persisted object has FreeCapacity
equal to the value statfs returned and AllocatedCapacity equal to the int64
difference TotalCapacity - FreeCapacity (whether or not a format of the same
pass had reset it to 0), which is the exact difference whenever that fits
int64; when a format was invoked and succeeded and a mount or a statfs was
invoked and failed, AllocatedCapacity is 0. -/
theorem update_capacity (im : Imports) (handler : DriveEventHandler) (drive d : DirectCSIDrive)
    (hReached : Call.DirectCSIDrivesUpdate d ∈ (update im handler drive).calls) :
    (∀ s t o mp free,
      Call.MountDrive s t o ∈ (update im handler drive).calls →
      handler.MountDrive s t o = none →
      Call.GetFreeCapacityFromStatfs mp ∈ (update im handler drive).calls →
      handler.GetFreeCapacityFromStatfs mp = Except.ok free →
      d.Status.FreeCapacity = free ∧
      d.Status.AllocatedCapacity =
        wrapInt64 (d.Status.TotalCapacity - d.Status.FreeCapacity) ∧
      (-(2 ^ 63) ≤ d.Status.TotalCapacity - free → d.Status.TotalCapacity - free < 2 ^ 63 →
        d.Status.AllocatedCapacity = d.Status.TotalCapacity - d.Status.FreeCapacity)) ∧
    (∀ u s f c,
      Call.FormatDrive u s f ∈ (update im handler drive).calls →
      handler.FormatDrive u s f = none →
      c ∈ (update im handler drive).calls →
      ((∃ src t o, c = Call.MountDrive src t o) ∨
        (∃ mp, c = Call.GetFreeCapacityFromStatfs mp)) →
      c.succeeds im handler = false →
      d.Status.AllocatedCapacity = 0) := by
  obtain ⟨rf, UUID, cs, dev, -, -, -, hG, hRun, hd, hDrive, hCalls, -⟩ :=
    update_reached im handler drive d hReached
  have hMem := update_deviceOp_mem im handler drive d rf UUID cs dev hG hRun hCalls
  obtain ⟨hFree, hAlloc, hTotal, -, -⟩ := passFinalize_capacity im dev
  rw [hd, hDrive, hFree, hAlloc, hTotal]
  constructor
  · intro s t o mp free hMount hMountOk hStat hStatOk
    obtain ⟨h1, h2, h3⟩ := deviceRun_measured im handler drive rf UUID dev hRun s t o mp free
      (hMem _ hMount rfl) (hMem _ hStat rfl) hStatOk
    rw [h1, h2, h3]
    refine ⟨rfl, rfl, ?_⟩
    intro hLow hHigh
    exact wrapInt64_of_range _ hLow hHigh
  · intro u s f c hFormat hFormatOk hc hKind hFails
    have hOp : c.isDeviceOp = true := by
      rcases hKind with ⟨src, t, o, rfl⟩ | ⟨mp, rfl⟩ <;> rfl
    exact deviceRun_reset im handler drive rf UUID dev hRun u s f c (hMem _ hFormat rfl)
      hFormatOk (hMem c hc hOp) hFails

/-- C18 at the drive `d1` of 100 bytes: with every collaborator succeeding the
persisted object has 60 free and 40 allocated bytes. -/
theorem update_capacity_witness :
    (update sampleImports (sampleHandler [])
      (sampleDrive "d1" DriveStatus.Available)).drive.Status.FreeCapacity = 60 ∧
    (update sampleImports (sampleHandler [])
      (sampleDrive "d1" DriveStatus.Available)).drive.Status.AllocatedCapacity = 100 - 60 :=
  have h := (update_capacity sampleImports (sampleHandler [])
    (sampleDrive "d1" DriveStatus.Available)
    (update sampleImports (sampleHandler []) (sampleDrive "d1" DriveStatus.Available)).drive
    (by decide)).1 "/dev/01020304-0506-4708-890a-0b0c0d0e0f10"
    "/mnt/01020304-0506-4708-890a-0b0c0d0e0f10" ["noatime"]
    "/mnt/01020304-0506-4708-890a-0b0c0d0e0f10" 60 (by decide) rfl (by decide) rfl
  ⟨h.1, h.2.2 (by decide) (by decide)⟩

/-- C19: for a drive with a pending format request (so for every Available
drive that passes the entry gate), when Filesystem is non-empty and force is
false the pass invokes neither format nor unmount and keeps Status.Filesystem,
and AllocatedCapacity is not reset: it keeps its value, or takes the
difference that follows a successful statfs of the same pass. When Filesystem
is empty or force is true, a block-node creation was made and succeeded and
every unmount made succeeded, format is invoked exactly once, on the
identifier of the persisted object and with the force flag of the request. -/
theorem update_format_decision (im : Imports) (handler : DriveEventHandler)
    (drive : DirectCSIDrive) (rf : RequestedFormatInfo)
    (hReq : drive.Spec.RequestedFormat = some rf) :
    (drive.Status.Filesystem ≠ "" → rf.Force = false →
      (∀ c ∈ (update im handler drive).calls, c.isFormat = false ∧ c.isUnmount = false) ∧
      (update im handler drive).drive.Status.Filesystem = drive.Status.Filesystem ∧
      ((update im handler drive).drive.Status.AllocatedCapacity =
          drive.Status.AllocatedCapacity ∨
        ∃ mp free, Call.GetFreeCapacityFromStatfs mp ∈ (update im handler drive).calls ∧
          handler.GetFreeCapacityFromStatfs mp = Except.ok free ∧
          (update im handler drive).drive.Status.AllocatedCapacity =
            wrapInt64 (drive.Status.TotalCapacity - free))) ∧
    (drive.Status.Filesystem = "" ∨ rf.Force = true →
      (∃ path major minor, Call.MakeBlockFile path major minor ∈ (update im handler drive).calls ∧
        handler.MakeBlockFile path major minor = none) →
      (∀ source, Call.UnmountDrive source ∈ (update im handler drive).calls →
        handler.UnmountDrive source = none) →
      (update im handler drive).calls.filter Call.isFormat =
        [Call.FormatDrive (update im handler drive).drive.Status.FilesystemUUID
          (im.GetDirectCSIPath (update im handler drive).drive.Status.FilesystemUUID)
          rf.Force]) := by
  rcases update_reached_or_not im handler drive with ⟨d, hd⟩ | ⟨hNone, hSame⟩
  · obtain ⟨rf0, UUID, cs, dev, -, -, hReq0, hG, hRun, -, hDrive, hCalls, -⟩ :=
      update_reached im handler drive d hd
    have hrf : rf0 = rf := by
      rw [hReq] at hReq0
      exact (Option.some.inj hReq0).symm
    subst hrf
    have hOps := update_deviceOps im handler drive d rf0 UUID cs dev hG hRun hCalls
    have hMem := update_deviceOp_mem im handler drive d rf0 UUID cs dev hG hRun hCalls
    obtain ⟨-, hAlloc, -, hFsEq, -⟩ := passFinalize_capacity im dev
    constructor
    · intro hFs hForce
      obtain ⟨hNo, hKeep, hCap⟩ := deviceRun_no_format im handler drive rf0 UUID dev hRun hFs hForce
      refine ⟨?_, ?_, ?_⟩
      · intro c hc
        by_cases hOp : c.isDeviceOp = true
        · exact hNo c (hMem c hc hOp)
        · cases c <;> simp_all [Call.isDeviceOp, Call.isFormat, Call.isUnmount]
      · rw [hDrive, hFsEq, hKeep]
      · rw [hDrive, hAlloc]
        rcases hCap with h | ⟨mp, free, hIn, hOk, hEq⟩
        · exact Or.inl h
        · refine Or.inr ⟨mp, free, ?_, hOk, hEq⟩
          rw [hCalls]
          simp [hIn]
    · intro hNeed hMk hUn
      obtain ⟨path, major, minor, hIn, hOk⟩ := hMk
      rw [← filter_isFormat_deviceOps, hOps, hDrive, passFinalize_uuid,
        deviceRun_uuid im handler drive rf0 UUID dev hRun]
      exact deviceRun_format_once im handler drive rf0 UUID dev hRun hNeed
        ⟨path, major, minor, hMem _ hIn rfl, hOk⟩ (fun source h => hUn source (by
          rw [hCalls]
          simp [h]))
  · constructor
    · intro _ _
      refine ⟨?_, by rw [hSame], Or.inl (by rw [hSame])⟩
      intro c hc
      rw [hNone c hc]
      exact ⟨rfl, rfl⟩
    · intro _ hMk _
      obtain ⟨path, major, minor, hIn, -⟩ := hMk
      cases hNone _ hIn

/-- C19 at the formatted drive `d1` with a failing mounter (no format, no
unmount, capacity kept) and at the unformatted drive `d1` (one format call
with force false). -/
theorem update_format_decision_witness :
    ((∀ c ∈ (update sampleImports (mountFailingHandler []) (formattedDrive "d1")).calls,
        c.isFormat = false ∧ c.isUnmount = false) ∧
      (update sampleImports (mountFailingHandler [])
        (formattedDrive "d1")).drive.Status.Filesystem = "xfs") ∧
    (update sampleImports (sampleHandler [])
      (sampleDrive "d1" DriveStatus.Available)).calls.filter Call.isFormat =
      [Call.FormatDrive "01020304-0506-4708-890a-0b0c0d0e0f10"
        "/dev/01020304-0506-4708-890a-0b0c0d0e0f10" false] :=
  have h1 := (update_format_decision sampleImports (mountFailingHandler []) (formattedDrive "d1")
    { Force := false, MountOptions := ["noatime"] } rfl).1 (by decide) rfl
  have h2 := (update_format_decision sampleImports (sampleHandler [])
    (sampleDrive "d1" DriveStatus.Available)
    { Force := false, MountOptions := ["noatime"] } rfl).2 (Or.inl rfl)
    ⟨"/dev/01020304-0506-4708-890a-0b0c0d0e0f10", 8, 16, by decide, rfl⟩ (fun _ _ => rfl)
  ⟨⟨h1.1, h1.2.1⟩, h2⟩

/-- C20 at the drive `d1` with a statter that fails after the mount succeeded:
the object handed to the repository has the mountpoint
`MountRoot/<identifier>` and the Mounted condition False. -/
theorem statfs_failure_mounted_condition :
    Call.MountDrive "/dev/01020304-0506-4708-890a-0b0c0d0e0f10"
        "/mnt/01020304-0506-4708-890a-0b0c0d0e0f10" ["noatime"] ∈
      (update sampleImports statfsFailingHandler (sampleDrive "d1" DriveStatus.Available)).calls ∧
    statfsFailingHandler.MountDrive "/dev/01020304-0506-4708-890a-0b0c0d0e0f10"
        "/mnt/01020304-0506-4708-890a-0b0c0d0e0f10" ["noatime"] = none ∧
    Call.DirectCSIDrivesUpdate
        (update sampleImports statfsFailingHandler (sampleDrive "d1" DriveStatus.Available)).drive ∈
      (update sampleImports statfsFailingHandler (sampleDrive "d1" DriveStatus.Available)).calls ∧
    (update sampleImports statfsFailingHandler
      (sampleDrive "d1" DriveStatus.Available)).drive.Status.Mountpoint =
      "/mnt/01020304-0506-4708-890a-0b0c0d0e0f10" ∧
    (update sampleImports statfsFailingHandler
      (sampleDrive "d1" DriveStatus.Available)).drive.Status.Conditions.Mounted.Status =
      ConditionStatus.False ∧
    (update sampleImports statfsFailingHandler (sampleDrive "d1" DriveStatus.Available)).err =
      some "statfs failed" := by
  decide

end DirectCSI
